import Mathlib

/-!
# Verification of the MangaPark toolkit export/match core

Shallow embedding of the export engine in `mp_export_runner.js`
(failure classification, in-request retry, pause backoff, the resumable
page loop with its dedupe map and persisted state/snapshot writes),
of the MangaDex auto-match driver in `migrate.js`, and of the fuzzy
title-similarity utility declared by `migrate_utils.js` (whose
implementation is exercised by `tests/migrate_utils.test.js`).

Conventions:
* JS `Map` insertion-order is modelled by an association list
  (`List (String × Item)`), appended on insert.
* `chrome.storage` writes are modelled as pure record updates of a
  `Store`; `updateState` patch semantics are record updates that leave
  unmentioned fields untouched.
* ISO timestamps are modelled as millisecond counters (`Nat`); fields
  that hold only timestamps or purely diagnostic data
  (`captured_at`, `updated_at`, the diagnostic snapshot) are omitted.
* `Math.random()` is modelled by a rational sample `q`.
* The JS `mp_export_partial` payload is called `Snapshot` here.
-/

namespace MP

/-! ## Items and the dedupe map (mp_export_runner.js) -/

/-- A follow-list item as produced by `mapItemToDataset`.  The
`last_read_*` fields are always empty strings in the current schema
(see the NOTE in `QUERY_LITE`) and are omitted, as is `captured_at`
(a timestamp). -/
structure Item where
  title : String
  mangapark_url : String
  comic_id : String
deriving DecidableEq, Repr

/-- Dedup key preference: `item.comic_id || item.mangapark_url`
(JS `||` on strings: an empty string is falsy). -/
def dedupeKey (it : Item) : String :=
  if it.comic_id ≠ "" then it.comic_id else it.mangapark_url

/-- The dedupe `Map`, in insertion order. -/
abbrev DMap := List (String × Item)

/-- `dedupePush` from mp_export_runner.js: drop items whose key is
empty, keep the first item seen for each key. -/
def dedupePush (m : DMap) (it : Item) : DMap :=
  if dedupeKey it = "" then m
  else if m.any (fun kv => kv.1 = dedupeKey it) then m
  else m ++ [(dedupeKey it, it)]

/-- A server row (`comicNode` projection used by `mapItemToDataset`);
a missing `id`/`name`/`urlPath` is the empty string. -/
structure Row where
  comicId : String
  name : String
  urlPath : String
deriving DecidableEq, Repr

/-- `mapItemToDataset`: build an `Item` from a server row
(`mangapark_url` is `origin + urlPath` when `urlPath` is non-empty). -/
def mapItemToDataset (origin : String) (r : Row) : Item :=
  { title := r.name
    mangapark_url := if r.urlPath ≠ "" then origin ++ r.urlPath else ""
    comic_id := r.comicId }

/-! ## Failure classification -/

/-- `isTransientHttpStatus` (429, any 5xx, 403, 408). -/
def isTransientHttpStatus (s : Nat) : Bool :=
  if s = 429 then true
  else if 500 ≤ s ∧ s ≤ 599 then true
  else if s = 403 then true
  else if s = 408 then true
  else false

/-- `isTransientErrorCode`: the named transient codes plus `HTTP_<n>`
for a transient `n`. -/
def isTransientErrorCode (c : String) : Bool :=
  if c = "" then false
  else if c = "BAD_RESPONSE" then true
  else if c = "NO_RESPONSE" then true
  else if c = "NETWORK_ERROR" then true
  else if c = "TIMEOUT" then true
  else if c = "RETRY_COOLDOWN" then true
  else if c.startsWith "HTTP_" then
    match (c.drop 5).toNat? with
    | some n => isTransientHttpStatus n
    | none => false
  else false

/-- The `res` argument of `classifyNetworkFailure`: a fetch `Response`
restricted to the fields the classifier reads. -/
structure Resp where
  ok : Bool
  status : Nat
deriving DecidableEq, Repr

/-- A thrown JS error, restricted to the fields the classifier reads
(`code` is `""` when the error has no `code` property). -/
structure JsErr where
  code : String
  name : String
deriving DecidableEq, Repr

/-- The argument record `{ res, jsonOk, err }` of
`classifyNetworkFailure`. -/
structure ClassifyInput where
  res : Option Resp
  jsonOk : Option Bool
  err : Option JsErr
deriving DecidableEq, Repr

/-- The classifier's result `{ retryable, code }`. -/
structure Failure where
  retryable : Bool
  code : String
deriving DecidableEq, Repr

/-- `classifyNetworkFailure` from mp_export_runner.js. -/
def classifyNetworkFailure (i : ClassifyInput) : Failure :=
  match i.err with
  | some e =>
    if e.code = "CANCELLED" then ⟨false, "CANCELLED"⟩
    else if e.name = "AbortError" then ⟨true, "TIMEOUT"⟩
    else ⟨true, "NETWORK_ERROR"⟩
  | none =>
    match i.res with
    | none => ⟨true, "NO_RESPONSE"⟩
    | some r =>
      if r.ok = false then ⟨isTransientHttpStatus r.status, "HTTP_" ++ toString r.status⟩
      else if i.jsonOk = some false then ⟨true, "BAD_RESPONSE"⟩
      else ⟨false, ""⟩

/-- A fetch `Response` for a given HTTP status (`ok` is the fetch
semantics `200 ≤ status ≤ 299`). -/
def respOfStatus (s : Nat) : Resp :=
  ⟨decide (200 ≤ s ∧ s ≤ 299), s⟩

/-! ## In-request retry (`requestWithRetry`) -/

/-- `RETRY_MAX` from mp_export_runner.js. -/
def RETRY_MAX : Nat := 3

/-- The parsed, shape-checked body of a successful page response
(`paging.pages`, `paging.total`, `items`). -/
structure PageBody where
  pages : Nat
  total : Nat
  rows : List Row
deriving DecidableEq, Repr

/-- One `/apo/` response: its status and its body, `none` when the body
fails JSON parsing or the pagination shape check. -/
structure ApoResponse where
  status : Nat
  body : Option PageBody
deriving DecidableEq, Repr

/-- What one attempt of `makeRequest()` does. -/
inductive AttemptResult where
  | response (r : ApoResponse)
  | thrown (code name : String)
deriving DecidableEq, Repr

/-- Environment of one attempt inside `requestWithRetry`:
`cancelBefore` is the value of `cancelRequested || readCancelFlag()`
at the top of the attempt, `cancelAtCatch` its value at the
`AbortError` check in the catch block. -/
structure RequestAttempt where
  cancelBefore : Bool
  result : AttemptResult
  cancelAtCatch : Bool
deriving DecidableEq, Repr

/-- Final outcome of `requestWithRetry`: a returned response or a
propagated thrown error. -/
inductive ReqOutcome where
  | ok (r : ApoResponse)
  | err (code name : String)
deriving DecidableEq, Repr

/-- Result of a `requestWithRetry` call together with the number of
attempts made and the backoff sleeps performed between them. -/
structure ReqResult where
  outcome : ReqOutcome
  attempts : Nat
  sleeps : List Nat
deriving DecidableEq, Repr

/-- `requestWithRetry` from mp_export_runner.js, driven by a list of
attempt environments.  An exhausted environment stands for a fetch
rejection on the next attempt. -/
def requestWithRetry : List RequestAttempt → Nat → ReqResult
  | [], _ => ⟨.err "ENV_EXHAUSTED" "", 1, []⟩
  | a :: rest, attempt =>
    if a.cancelBefore then ⟨.err "CANCELLED" "Error", 1, []⟩
    else
      match a.result with
      | .response r =>
        if r.status = 429 ∨ (500 ≤ r.status ∧ r.status ≤ 599) then
          if RETRY_MAX ≤ attempt then ⟨.ok r, 1, []⟩
          else
            let backoff := min 4000 (250 * 2 ^ (attempt - 1))
            let r2 := requestWithRetry rest (attempt + 1)
            ⟨r2.outcome, r2.attempts + 1, backoff :: r2.sleeps⟩
        else ⟨.ok r, 1, []⟩
      | .thrown code name =>
        if code = "CANCELLED" then ⟨.err code name, 1, []⟩
        else if name = "AbortError" ∧ a.cancelAtCatch then ⟨.err code name, 1, []⟩
        else if RETRY_MAX ≤ attempt then ⟨.err code name, 1, []⟩
        else
          let backoff := min 4000 (250 * 2 ^ (attempt - 1))
          let r2 := requestWithRetry rest (attempt + 1)
          ⟨r2.outcome, r2.attempts + 1, backoff :: r2.sleeps⟩

/-- An attempt on which `requestWithRetry` performs an in-request
retry: no cancellation observed, and either a 429/5xx response or a
thrown non-cancellation error. -/
def inRequestRetryable (a : RequestAttempt) : Bool :=
  !a.cancelBefore &&
    match a.result with
    | .response r => decide (r.status = 429 ∨ (500 ≤ r.status ∧ r.status ≤ 599))
    | .thrown code name =>
      decide (code ≠ "CANCELLED") && !(name = "AbortError" && a.cancelAtCatch)

/-- The `{ res, jsonOk, err }` record the export loop hands to
`classifyNetworkFailure` for a given `requestWithRetry` outcome
(`jsonOk` is computed only for an `ok` response, as in the loop body). -/
def classifyInputOfOutcome : ReqOutcome → ClassifyInput
  | .ok r =>
    let okB := decide (200 ≤ r.status ∧ r.status ≤ 299)
    ⟨some ⟨okB, r.status⟩, if okB then some r.body.isSome else none, none⟩
  | .err code name => ⟨none, none, some ⟨code, name⟩⟩

/-- Classification of a finished page request. -/
def classifyOutcome (o : ReqOutcome) : Failure :=
  classifyNetworkFailure (classifyInputOfOutcome o)

/-! ## Pause backoff -/

/-- `clampInt` from mp_export_runner.js (on an integer argument). -/
def clampInt (n min max : Int) : Int :=
  if n < min then min else if max < n then max else n

/-- `PAUSE_BACKOFF_MIN_MS`. -/
def PAUSE_BACKOFF_MIN_MS : Nat := 5000

/-- `PAUSE_BACKOFF_MAX_MS`. -/
def PAUSE_BACKOFF_MAX_MS : Nat := 15000

/-- `computePauseBackoffMs`, with `Math.random()` modelled by the
rational sample `q`: jitter is `⌊q * (span + 1)⌋` for
`span = max - min`, and the sum is clamped into `[min, max]`. -/
def computePauseBackoffMs (q : ℚ) : Nat :=
  (clampInt (5000 + Int.floor (q * 10001)) 5000 15000).toNat

/-! ## Export state, snapshot and store -/

/-- The `last_error` object written by `pauseExport` / the `runExport`
catch handler (`at` and `retry_at` ISO strings as millisecond counts). -/
structure LastError where
  code : String
  retryable : Bool
  atMs : Nat
  retry_after_ms : Nat
  retry_at_ms : Nat
deriving DecidableEq, Repr

/-- `mp_export_state` (`started_at`/`updated_at`/`last_progress_at`
timestamps omitted). -/
structure ExportState where
  status : String
  page : Nat
  pages : Option Nat
  collected : Nat
  total : Option Nat
  error : Option String
  last_error : Option LastError
deriving DecidableEq, Repr

/-- The meta of the `mp_export_partial` payload
(`source_origin`/`updated_at` omitted). -/
structure SnapshotMeta where
  status : String
  page : Nat
  pages : Option Nat
  total : Option Nat
  userId : String
  last_error : Option LastError
deriving DecidableEq, Repr

/-- The `mp_export_partial` resumable snapshot payload. -/
structure Snapshot where
  meta : SnapshotMeta
  items : List Item
deriving DecidableEq, Repr

/-- The final `mp_export_follows` payload meta
(`captured_at`/`source_origin` omitted). -/
structure PayloadMeta where
  userId : String
  total_items : Nat
deriving DecidableEq, Repr

/-- The final `mp_export_follows` export payload. -/
structure ExportPayload where
  meta : PayloadMeta
  items : List Item
deriving DecidableEq, Repr

/-- The storage keys the runner writes: `mp_export_state`,
`mp_export_partial`, `mp_export_follows`. -/
structure Store where
  state : ExportState
  snapshot : Option Snapshot
  data : Option ExportPayload
deriving DecidableEq, Repr

/-- `isValidPartialPayload`: items non-empty and `meta.page ≥ 1`. -/
def isValidPartialPayload (p : Snapshot) : Bool :=
  !p.items.isEmpty && decide (1 ≤ p.meta.page)

/-- `readPartialPayload`: the stored snapshot if it validates. -/
def readPartialPayload (st : Store) : Option Snapshot :=
  match st.snapshot with
  | some p => if isValidPartialPayload p then some p else none
  | none => none

/-- `hydrateDedupeFromPartial`: insert each snapshot item under its
dedupe key, skipping empty keys and already-present keys (the body is
exactly `dedupePush` per item). -/
def hydrateDedupeFromPartial (d : DMap) (p : Snapshot) : DMap :=
  p.items.foldl dedupePush d

/-- `buildPartialPayload`. -/
def buildPartialPayload (status : String) (page : Nat) (pages total : Option Nat)
    (userId : String) (items : List Item) (lastError : Option LastError) : Snapshot :=
  ⟨⟨status, page, pages, total, userId, lastError⟩, items⟩

/-! ### The `updateState` patches used by the runner -/

/-- The state patch at the top of `exportAllFollowsViaApo`. -/
def initWrite (s : ExportState) (startPage dedupeSize : Nat) : ExportState :=
  { s with status := "running", page := startPage - 1, pages := none,
           collected := dedupeSize, total := none, error := none }

/-- The per-page success patch. -/
def successWrite (s : ExportState) (p pages collected total : Nat) : ExportState :=
  { s with status := "running", page := p, pages := some pages,
           collected := collected, total := some total, error := none }

/-- The loop-top cancellation patch (`status idle`, `error CANCELLED`). -/
def cancelWrite (s : ExportState) : ExportState :=
  { s with status := "idle", error := some "CANCELLED" }

/-- The state patch of `pauseExport`. -/
def pauseStateWrite (s : ExportState) (page : Nat) (pages total : Option Nat)
    (collected : Nat) (le : LastError) : ExportState :=
  { s with status := "paused", page := page, pages := pages, collected := collected,
           total := total, error := some le.code, last_error := some le }

/-- The non-retryable failure patch (`status error`). -/
def errorWrite (s : ExportState) (code : String) : ExportState :=
  { s with status := "error", error := some code }

/-- The completion patch (`status done`; `page` untouched). -/
def doneWrite (s : ExportState) (pages : Option Nat) (collected : Nat)
    (total : Option Nat) : ExportState :=
  { s with status := "done", pages := pages, collected := collected,
           total := total, error := none }

/-- The paused patch of the `runExport` catch handler (only
`status`/`error`/`last_error`). -/
def catchPausedWrite (s : ExportState) (code : String) (le : LastError) : ExportState :=
  { s with status := "paused", error := some code, last_error := some le }

/-- The `last_error` object built on pause. -/
def mkLastError (code : String) (nowMs backoff : Nat) : LastError :=
  ⟨code, true, nowMs, backoff, nowMs + backoff⟩

/-! ## The export loop -/

/-- What the page loop observes at one iteration: the cancellation
flag at loop top, or the attempt-by-attempt behaviour of this page's
`requestWithRetry` call. -/
inductive PageEvent where
  | cancel
  | fetch (reqEnv : List RequestAttempt)
deriving DecidableEq, Repr

/-- Environment threaded through the loop: origin, resolved user id,
current clock, and the `Math.random()` sample used on pause. -/
structure LoopEnv where
  origin : String
  userId : String
  nowMs : Nat
  q : ℚ
deriving DecidableEq, Repr

/-- How a run ended. `thrown c` models an exception propagating out of
`exportAllFollowsViaApo`; `outOfEvents` marks an exhausted event list
(the run would keep looping); `notStarted` models the `status ===
"running"` no-op guard. -/
inductive Outcome where
  | ok (count : Nat)
  | cancelled
  | paused
  | fatal (code : String)
  | thrown (code : String)
  | outOfEvents
  | notStarted
deriving DecidableEq, Repr

/-- Result of a run: its outcome, the final store, and the traces of
every `mp_export_state` write, snapshot write, payload write and page
request made, in order. -/
structure RunResult where
  outcome : Outcome
  store : Store
  writes : List ExportState
  snapshotWrites : List Snapshot
  payloadWrites : List ExportPayload
  requests : List Nat
  dedupe : DMap
deriving DecidableEq, Repr

/-- `pauseExport`: build the `last_error`, persist the paused snapshot
holding every item collected so far, then write the paused state.
`reqs1` is the request trace up to and including the failed page. -/
def pauseExportStep (env : LoopEnv) (code : String) (lastGood : Nat)
    (pages total : Option Nat) (dedupe : DMap) (store : Store)
    (ws : List ExportState) (sws : List Snapshot) (pws : List ExportPayload)
    (reqs1 : List Nat) : RunResult :=
  let le := mkLastError code env.nowMs (computePauseBackoffMs env.q)
  let snap := buildPartialPayload "paused" lastGood pages total env.userId
    (dedupe.map Prod.snd) (some le)
  let s1 := pauseStateWrite store.state lastGood pages total dedupe.length le
  ⟨.paused, { store with state := s1, snapshot := some snap },
    ws ++ [s1], sws ++ [snap], pws, reqs1, dedupe⟩

/-- The page loop of `exportAllFollowsViaApo`, one `PageEvent` per
iteration.  Arguments mirror the JS locals: current page `p`, the
dedupe map, `pages`/`total` (null until the first success),
`lastGoodPage`, plus the store and the write/request traces.
The two `.fatal "UNREACHABLE"` arms are dead code: the classifier
returns an empty code only for a 2xx response with a valid body. -/
def exportLoop (env : LoopEnv) :
    List PageEvent → Nat → DMap → Option Nat → Option Nat → Nat →
    Store → List ExportState → List Snapshot → List ExportPayload → List Nat → RunResult
  | [], _, dedupe, _, _, _, store, ws, sws, pws, reqs =>
    ⟨.outOfEvents, store, ws, sws, pws, reqs, dedupe⟩
  | .cancel :: _, _, dedupe, _, _, _, store, ws, sws, pws, reqs =>
    let s1 := cancelWrite store.state
    ⟨.cancelled, { store with state := s1 }, ws ++ [s1], sws, pws, reqs, dedupe⟩
  | .fetch reqEnv :: evs, p, dedupe, pages, total, lastGood, store, ws, sws, pws, reqs =>
    let rr := requestWithRetry reqEnv 1
    let reqs1 := reqs ++ [p]
    let f := classifyOutcome rr.outcome
    if f.code = "CANCELLED" then
      ⟨.thrown "CANCELLED", store, ws, sws, pws, reqs1, dedupe⟩
    else if f.code = "" then
      match rr.outcome with
      | .ok resp =>
        match resp.body with
        | some pb =>
          let dedupe1 := pb.rows.foldl (fun d r => dedupePush d (mapItemToDataset env.origin r)) dedupe
          let s1 := successWrite store.state p pb.pages dedupe1.length pb.total
          let store1 : Store := { store with state := s1 }
          let ws1 := ws ++ [s1]
          let snap := buildPartialPayload "running" p (some pb.pages) (some pb.total)
            env.userId (dedupe1.map Prod.snd) none
          let store2 := if p % 5 = 0 then { store1 with snapshot := some snap } else store1
          let sws1 := if p % 5 = 0 then sws ++ [snap] else sws
          if pb.pages ≤ p then
            let fin := dedupe1.map Prod.snd
            let pay : ExportPayload := ⟨⟨env.userId, fin.length⟩, fin⟩
            let s2 := doneWrite store2.state (some pb.pages) fin.length (some pb.total)
            ⟨.ok fin.length, { store2 with state := s2, snapshot := none, data := some pay },
              ws1 ++ [s2], sws1, pws ++ [pay], reqs1, dedupe1⟩
          else
            exportLoop env evs (p + 1) dedupe1 (some pb.pages) (some pb.total) p
              store2 ws1 sws1 pws reqs1
        | none => ⟨.fatal "UNREACHABLE", store, ws, sws, pws, reqs1, dedupe⟩
      | .err _ _ => ⟨.fatal "UNREACHABLE", store, ws, sws, pws, reqs1, dedupe⟩
    else if f.retryable then
      pauseExportStep env f.code lastGood pages total dedupe store ws sws pws reqs1
    else
      let s1 := errorWrite store.state f.code
      ⟨.fatal f.code, { store with state := s1 }, ws ++ [s1], sws, pws, reqs1, dedupe⟩

/-- Environment of one `runExport` invocation. -/
structure RunEnv where
  origin : String
  userId : Option String
  nowMs : Nat
  q : ℚ
  waitCancel : Bool
  events : List PageEvent
deriving DecidableEq, Repr

/-- The resume decision inside `exportAllFollowsViaApo`: on a resume
(`resumeFromPage > 1`) with a valid snapshot, hydrate the dedupe map
from the snapshot items and restart at `snapshot.meta.page + 1`;
otherwise start with an empty map at `resumeFromPage` (or page 1). -/
def resumeHydration (part : Option Snapshot) (resumeFromPage : Nat) : DMap × Nat :=
  match part with
  | some pp =>
    if 1 < resumeFromPage then
      (hydrateDedupeFromPartial [] pp,
       if 1 ≤ pp.meta.page then pp.meta.page + 1 else 1)
    else ([], if 0 < resumeFromPage then resumeFromPage else 1)
  | none => ([], if 0 < resumeFromPage then resumeFromPage else 1)

/-- `exportAllFollowsViaApo`: validate a resume, resolve the user,
hydrate the dedupe map from the snapshot on resume, write the initial
running state, and enter the page loop. -/
def exportAllFollows (env : RunEnv) (st0 : Store) (resumeFromPage : Nat) : RunResult :=
  let part := readPartialPayload st0
  if 1 < resumeFromPage ∧ part = none then
    let s1 := { st0.state with status := "error", error := some "RESUME_UNAVAILABLE" }
    ⟨.fatal "RESUME_UNAVAILABLE", { st0 with state := s1 }, [s1], [], [], [], []⟩
  else
    match env.userId with
    | none => ⟨.thrown "NOT_LOGGED_IN", st0, [], [], [], [], []⟩
    | some uid =>
      let dedupe0 := (resumeHydration part resumeFromPage).1
      let startPage := (resumeHydration part resumeFromPage).2
      let s1 := initWrite st0.state startPage dedupe0.length
      exportLoop ⟨env.origin, uid, env.nowMs, env.q⟩ env.events startPage dedupe0
        none none (startPage - 1) { st0 with state := s1 } [s1] [] [] []

/-- The resume-point decision of `runExport`: from the most recent
valid snapshot (`snapshot.meta.page + 1`), else from the previous
state when it shows an unfinished run, else page 1. -/
def decideResumeFrom (st0 : Store) : Nat :=
  match readPartialPayload st0 with
  | some p => if 1 ≤ p.meta.page then p.meta.page + 1 else 1
  | none =>
    match st0.state.pages with
    | some lp => if st0.state.page ≠ 0 ∧ st0.state.page < lp then st0.state.page + 1 else 1
    | none => 1

/-- The catch handler of `runExport`: a thrown error becomes a paused
state when a valid snapshot survives and the code is transient,
otherwise an error state; any other outcome passes through. -/
def runCatch (env : RunEnv) (r : RunResult) : RunResult :=
  match r.outcome with
  | .thrown c =>
    if (readPartialPayload r.store).isSome ∧ isTransientErrorCode c = true then
      let le := mkLastError c env.nowMs (computePauseBackoffMs env.q)
      let s1 := catchPausedWrite r.store.state c le
      { r with store := { r.store with state := s1 }, writes := r.writes ++ [s1] }
    else
      let s1 := errorWrite r.store.state c
      { r with store := { r.store with state := s1 }, writes := r.writes ++ [s1] }
  | _ => r

/-- `runExport`: the running-guard, the paused-retry wait window, the
resume-point decision, the call into `exportAllFollowsViaApo`, and
the catch handler. -/
def runExport (env : RunEnv) (st0 : Store) : RunResult :=
  if st0.state.status = "running" then
    ⟨.notStarted, st0, [], [], [], [], []⟩
  else if st0.state.status = "paused" ∧ env.waitCancel then
    let s1 := errorWrite st0.state "CANCELLED"
    ⟨.thrown "CANCELLED", { st0 with state := s1 }, [s1], [], [], [], []⟩
  else
    runCatch env (exportAllFollows env st0 (decideResumeFrom st0))

/-! ## Fuzzy matcher (migrate_utils.js / migrate.js) -/

/-- Modelled from the spec: accent/diacritic folding used by the title
normalizer.  The implementation of `normalizeForMatch` is not under
`src/` (only its test `tests/migrate_utils.test.js` and its caller
`migrate.js` are); the spec says "fold accents/diacritics".  The table
covers the common Latin accented letters; unlisted characters are kept. -/
def foldAccent (c : Char) : Char :=
  if c = 'á' ∨ c = 'à' ∨ c = 'â' ∨ c = 'ä' ∨ c = 'ã' ∨ c = 'å' ∨
     c = 'Á' ∨ c = 'À' ∨ c = 'Â' ∨ c = 'Ä' ∨ c = 'Ã' ∨ c = 'Å' then 'a'
  else if c = 'é' ∨ c = 'è' ∨ c = 'ê' ∨ c = 'ë' ∨
          c = 'É' ∨ c = 'È' ∨ c = 'Ê' ∨ c = 'Ë' then 'e'
  else if c = 'í' ∨ c = 'ì' ∨ c = 'î' ∨ c = 'ï' ∨
          c = 'Í' ∨ c = 'Ì' ∨ c = 'Î' ∨ c = 'Ï' then 'i'
  else if c = 'ó' ∨ c = 'ò' ∨ c = 'ô' ∨ c = 'ö' ∨ c = 'õ' ∨
          c = 'Ó' ∨ c = 'Ò' ∨ c = 'Ô' ∨ c = 'Ö' ∨ c = 'Õ' then 'o'
  else if c = 'ú' ∨ c = 'ù' ∨ c = 'û' ∨ c = 'ü' ∨
          c = 'Ú' ∨ c = 'Ù' ∨ c = 'Û' ∨ c = 'Ü' then 'u'
  else if c = 'ç' ∨ c = 'Ç' then 'c'
  else if c = 'ñ' ∨ c = 'Ñ' then 'n'
  else c

/-- Collapse runs of spaces to a single space and drop trailing
spaces (leaving at most one leading space). -/
def collapseSpaces : List Char → List Char
  | [] => []
  | c :: rest =>
    if c = ' ' then
      match collapseSpaces rest with
      | [] => []
      | d :: ds => if d = ' ' then d :: ds else ' ' :: d :: ds
    else c :: collapseSpaces rest

/-- Drop a single leading space. -/
def trimLeadingSpace : List Char → List Char
  | ' ' :: rest => rest
  | l => l

/-- Modelled from the spec: `normalizeForMatch` (implementation not
under `src/`): fold accents, lowercase, collapse non-alphanumeric runs
to single spaces, trim.  Matches the test
`normalizeForMatch("  One-Piéce!! ") == "one piece"`. -/
def normalizeForMatch (s : String) : String :=
  String.mk (trimLeadingSpace (collapseSpaces (s.data.map (fun c =>
    let c1 := foldAccent c
    if c1.isAlphanum then c1.toLower else ' '))))

/-- Character bigrams of a string, in order, with multiplicity. -/
def bigrams (s : String) : List (Char × Char) :=
  s.data.zip s.data.tail

/-- Shared bigram count with multiset semantics: a bigram occurring
twice in one string can match at most twice in the other. -/
def sharedBigramCount (a b : List (Char × Char)) : Nat :=
  Multiset.card ((a : Multiset (Char × Char)) ∩ (b : Multiset (Char × Char)))

/-- Modelled from the spec: `diceCoefficient` (implementation not under
`src/`): the Sørensen–Dice coefficient over character bigrams of the
normalized strings, `2·|shared| / (|bigrams a| + |bigrams b|)`, with
the spec's degenerate cases (empty-after-normalize → 0, identical
normalized strings → 1, both too short for a bigram → 0). -/
def diceCoefficient (a b : String) : ℚ :=
  let na := normalizeForMatch a
  let nb := normalizeForMatch b
  if na = "" ∨ nb = "" then 0
  else if na = nb then 1
  else
    let ba := bigrams na
    let bb := bigrams nb
    if ba.length + bb.length = 0 then 0
    else (2 * sharedBigramCount ba bb : ℚ) / ((ba.length : ℚ) + (bb.length : ℚ))

/-! ## MangaDex auto-match driver (migrate.js) -/

/-- `MD_MATCH_MIN_SCORE`. -/
def MD_MATCH_MIN_SCORE : ℚ := 72 / 100

/-- `Math.round(score * 1000) / 1000`. -/
def roundTo3 (q : ℚ) : ℚ :=
  (round (q * 1000) : ℤ) / 1000

/-- `scoreMdCandidate`: best similarity of the source title against
the candidate's primary title and all alternate titles. -/
def scoreMdCandidate (mpTitle mdTitle : String) (mdAltTitles : List String) : ℚ :=
  mdAltTitles.foldl (fun best a => max best (diceCoefficient mpTitle a))
    (diceCoefficient mpTitle mdTitle)

/-- A MangaDex search row, with `pickBestMdTitle`/`extractAltTitles`
already applied to its attributes (`attr = none` models a row without
attributes, which the scoring loop skips). -/
structure MdAttr where
  title : String
  altTitles : List String
deriving DecidableEq, Repr

/-- A row of the MangaDex search response. -/
structure MdRow where
  id : String
  attr : Option MdAttr
deriving DecidableEq, Repr

/-- One retained candidate `{ id, title, score }`. -/
structure MdCand where
  id : String
  title : String
  score : ℚ
deriving DecidableEq, Repr

/-- One `MD_MATCH_RESULTS_KEY` entry (the empty-title entry is stored
without a `processed` flag, modelled as `processed := false`). -/
structure MatchEntry where
  processed : Bool
  mpTitle : String
  md : Option (String × String)
  score : ℚ
  candidates : List MdCand
deriving DecidableEq, Repr

/-- `md_match_state` (`updated_at` omitted). -/
structure MatchState where
  status : String
  index : Nat
  total : Nat
  matched : Nat
  openIndex : Nat
  error : String
deriving DecidableEq, Repr

/-- Environment of one auto-match iteration: the cancellation flag
read before the item, and the search call's outcome (`Except.error`
models a thrown `MD_HTTP_*`). -/
structure MatchStepEnv where
  cancel : Bool
  search : Except String (List MdRow)
deriving Repr

/-- Result of one auto-match run: final state, final results array,
and the indices for which a search request was issued, in order. -/
structure MatchRunResult where
  state : MatchState
  results : List (Option MatchEntry)
  queried : List Nat
deriving Repr

/-- `processed` flag of the stored entry at index `i` (absent → false). -/
def processedAt (rs : List (Option MatchEntry)) (i : Nat) : Bool :=
  match rs.getD i none with
  | some en => en.processed
  | none => false

/-- The candidate scan of one item: JS keeps a running `best` updated
only on a strictly greater score, and appends every candidate. -/
def scoreRows (mpTitle : String) (rows : List MdRow) :
    Option (String × String) × ℚ × List MdCand :=
  rows.foldl (fun acc row =>
    match row.attr with
    | none => acc
    | some attr =>
      if row.id = "" then acc
      else
        let score := scoreMdCandidate mpTitle attr.title attr.altTitles
        let cand : MdCand := ⟨row.id, attr.title, roundTo3 score⟩
        let cands := acc.2.2 ++ [cand]
        if acc.2.1 < score then (some (row.id, attr.title), score, cands)
        else (acc.1, acc.2.1, cands))
    (none, 0, [])

/-- The default item used for out-of-range reads. -/
def emptyItem : Item := ⟨"", "", ""⟩

/-- The `for` loop of `mdRunAutoMatch`, one fuel unit per index.
`st` carries the in-memory `mdMatchState` (only updated after a fully
processed item, as in the JS, where `continue` skips the update). -/
def mdMatchLoop (items : List Item) (env : Nat → MatchStepEnv) :
    Nat → Nat → List (Option MatchEntry) → Nat → MatchState → List Nat → MatchRunResult
  | 0, _, results, matched, st, queried =>
    ⟨{ st with status := "done", index := items.length, matched := matched }, results, queried⟩
  | fuel + 1, i, results, matched, st, queried =>
    if items.length ≤ i then
      ⟨{ st with status := "done", index := items.length, matched := matched }, results, queried⟩
    else
      let e := env i
      if e.cancel then
        ⟨{ st with status := "paused", index := i, matched := matched }, results, queried⟩
      else
        let mpTitle := (items.getD i emptyItem).title.trim
        if mpTitle = "" then
          mdMatchLoop items env fuel (i + 1)
            (results.set i (some ⟨false, "", none, 0, []⟩)) matched st queried
        else if processedAt results i then
          mdMatchLoop items env fuel (i + 1) results matched st queried
        else
          match e.search with
          | .error msg =>
            ⟨{ st with status := "paused", error := msg }, results, queried ++ [i]⟩
          | .ok rows =>
            let sc := scoreRows mpTitle rows
            let matched1 :=
              if sc.1.isSome ∧ MD_MATCH_MIN_SCORE ≤ sc.2.1 then matched + 1 else matched
            let entry : MatchEntry :=
              ⟨true, mpTitle, sc.1, roundTo3 sc.2.1, sc.2.2.take 5⟩
            mdMatchLoop items env fuel (i + 1) (results.set i (some entry)) matched1
              { st with status := "running", index := i, matched := matched1 }
              (queried ++ [i])

/-- The start index of a run: resume from the stored index when the
stored status is `paused` or `running`, else from 0. -/
def mdStartIndex (st : MatchState) : Nat :=
  if st.status = "paused" ∨ st.status = "running" then st.index else 0

/-- `mdRunAutoMatch`: no-op on an empty item list; otherwise pad the
results array to the item count, pick the start index from the stored
state, and run the loop. -/
def mdRunAutoMatch (items : List Item) (env : Nat → MatchStepEnv)
    (st0 : MatchState) (results0 : List (Option MatchEntry)) : MatchRunResult :=
  if items.length = 0 then ⟨st0, results0, []⟩
  else
    let padded := results0 ++ List.replicate (items.length - results0.length) none
    let start := mdStartIndex st0
    let st1 : MatchState :=
      { st0 with status := "running", total := items.length, index := start, error := "" }
    mdMatchLoop items env (items.length - start) start padded st1.matched st1 []

/-! ## Specification predicates -/

/-- Well-formedness of the dedupe map: every entry is keyed by its
item's dedupe key, keys are non-empty, and keys are distinct. -/
def WFmap (d : DMap) : Prop :=
  (∀ kv ∈ d, kv.1 = dedupeKey kv.2 ∧ kv.1 ≠ "") ∧ (d.map Prod.fst).Nodup

/-- The per-write monotonicity relation of C8: neither the `page` nor
the `collected` field may decrease between successive state writes. -/
def StateMono (a b : ExportState) : Prop :=
  a.page ≤ b.page ∧ a.collected ≤ b.collected

/-- Every item of the list has a non-empty dedupe key. -/
def KeyedItems (l : List Item) : Prop := ∀ it ∈ l, dedupeKey it ≠ ""

/-! ## Helper lemmas: the dedupe map -/

theorem WFmap_nil : WFmap [] := by
  constructor
  · intro kv h; cases h
  · simp

theorem mem_dedupePush {d : DMap} {kv : String × Item} (it : Item)
    (h : kv ∈ d) : kv ∈ dedupePush d it := by
  unfold dedupePush
  split_ifs <;> simp [h]

theorem dedupePush_wf {d : DMap} (it : Item) (h : WFmap d) :
    WFmap (dedupePush d it) := by
  unfold dedupePush
  split_ifs with h1 h2
  · exact h
  · exact h
  · constructor
    · intro kv hkv
      rcases List.mem_append.mp hkv with hl | hr
      · exact h.1 kv hl
      · simp at hr
        subst hr
        exact ⟨rfl, h1⟩
    · rw [List.map_append]
      simp only [List.map_cons, List.map_nil]
      rw [List.nodup_append]
      refine ⟨h.2, List.nodup_singleton _, ?_⟩
      intro a ha hb
      simp at hb
      subst hb
      rw [List.any_eq_true] at h2
      push_neg at h2
      rcases List.mem_map.mp ha with ⟨kv, hkv, hfst⟩
      exact absurd hfst (by simpa using h2 kv hkv)

theorem length_le_dedupePush (d : DMap) (it : Item) :
    d.length ≤ (dedupePush d it).length := by
  unfold dedupePush
  split_ifs <;> simp

theorem foldl_dedupePush_mem {α : Type} (f : α → Item) :
    ∀ (l : List α) (d : DMap) (kv : String × Item), kv ∈ d →
      kv ∈ l.foldl (fun m x => dedupePush m (f x)) d := by
  intro l
  induction l with
  | nil => intro d kv h; simpa using h
  | cons a rest ih =>
    intro d kv h
    simpa using ih (dedupePush d (f a)) kv (mem_dedupePush _ h)

theorem foldl_dedupePush_wf {α : Type} (f : α → Item) :
    ∀ (l : List α) (d : DMap), WFmap d →
      WFmap (l.foldl (fun m x => dedupePush m (f x)) d) := by
  intro l
  induction l with
  | nil => intro d h; simpa using h
  | cons a rest ih =>
    intro d h
    simpa using ih (dedupePush d (f a)) (dedupePush_wf _ h)

theorem foldl_dedupePush_length {α : Type} (f : α → Item) :
    ∀ (l : List α) (d : DMap),
      d.length ≤ (l.foldl (fun m x => dedupePush m (f x)) d).length := by
  intro l
  induction l with
  | nil => intro d; simp
  | cons a rest ih =>
    intro d
    calc d.length ≤ (dedupePush d (f a)).length := length_le_dedupePush d (f a)
    _ ≤ _ := by simpa using ih (dedupePush d (f a))

/-! ## Helper lemmas: backoff bounds -/

theorem computePauseBackoffMs_bounds (q : ℚ) :
    PAUSE_BACKOFF_MIN_MS ≤ computePauseBackoffMs q ∧
    computePauseBackoffMs q ≤ PAUSE_BACKOFF_MAX_MS := by
  unfold computePauseBackoffMs clampInt PAUSE_BACKOFF_MIN_MS PAUSE_BACKOFF_MAX_MS
  split_ifs with h1 h2 <;> constructor <;> omega

/-! ## C2: the failure classification table -/

/-- **C2.** `classifyNetworkFailure` returns `retryable = true` with
code `HTTP_<status>` for every HTTP status in `{429, 403, 408}` and
every status in `500..599`; `retryable = false` with code
`HTTP_<status>` for every other non-2xx status; retryable
`NETWORK_ERROR` for a thrown non-abort, non-cancellation error;
retryable `TIMEOUT` for an aborted request; and retryable
`BAD_RESPONSE` for a 2xx response whose body fails the pagination
shape check. -/
theorem C2_classification_table :
    (∀ s : Nat, (s = 429 ∨ s = 403 ∨ s = 408 ∨ (500 ≤ s ∧ s ≤ 599)) →
      classifyNetworkFailure ⟨some (respOfStatus s), none, none⟩ =
        ⟨true, "HTTP_" ++ toString s⟩) ∧
    (∀ s : Nat, ¬(200 ≤ s ∧ s ≤ 299) →
      ¬(s = 429 ∨ s = 403 ∨ s = 408 ∨ (500 ≤ s ∧ s ≤ 599)) →
      classifyNetworkFailure ⟨some (respOfStatus s), none, none⟩ =
        ⟨false, "HTTP_" ++ toString s⟩) ∧
    (∀ code name : String, code ≠ "CANCELLED" → name ≠ "AbortError" →
      classifyNetworkFailure ⟨none, none, some ⟨code, name⟩⟩ =
        ⟨true, "NETWORK_ERROR"⟩) ∧
    (∀ code : String, code ≠ "CANCELLED" →
      classifyNetworkFailure ⟨none, none, some ⟨code, "AbortError"⟩⟩ =
        ⟨true, "TIMEOUT"⟩) ∧
    (∀ s : Nat, 200 ≤ s → s ≤ 299 →
      classifyNetworkFailure ⟨some (respOfStatus s), some false, none⟩ =
        ⟨true, "BAD_RESPONSE"⟩) := by
  refine ⟨?_, ?_, ?_, ?_, ?_⟩
  · intro s hs
    have hno : ¬(200 ≤ s ∧ s ≤ 299) := by omega
    have ht : isTransientHttpStatus s = true := by
      unfold isTransientHttpStatus
      split_ifs <;> first | rfl | omega
    simp [classifyNetworkFailure, respOfStatus, hno, ht]
  · intro s hno hnt
    have ht : isTransientHttpStatus s = false := by
      unfold isTransientHttpStatus
      split_ifs <;> first | rfl | omega
    simp [classifyNetworkFailure, respOfStatus, hno, ht]
  · intro code name hc hn
    simp [classifyNetworkFailure, hc, hn]
  · intro code hc
    simp [classifyNetworkFailure, hc]
  · intro s h1 h2
    have hok : 200 ≤ s ∧ s ≤ 299 := ⟨h1, h2⟩
    simp [classifyNetworkFailure, respOfStatus, hok]

/-- Witness for C2 at concrete statuses and errors. -/
theorem C2_classification_table_witness :
    classifyNetworkFailure ⟨some (respOfStatus 503), none, none⟩ =
      ⟨true, "HTTP_503"⟩ ∧
    classifyNetworkFailure ⟨some (respOfStatus 404), none, none⟩ =
      ⟨false, "HTTP_404"⟩ ∧
    classifyNetworkFailure ⟨none, none, some ⟨"", "TypeError"⟩⟩ =
      ⟨true, "NETWORK_ERROR"⟩ ∧
    classifyNetworkFailure ⟨none, none, some ⟨"", "AbortError"⟩⟩ =
      ⟨true, "TIMEOUT"⟩ ∧
    classifyNetworkFailure ⟨some (respOfStatus 200), some false, none⟩ =
      ⟨true, "BAD_RESPONSE"⟩ :=
  ⟨C2_classification_table.1 503 (by omega),
   C2_classification_table.2.1 404 (by omega) (by omega),
   C2_classification_table.2.2.1 "" "TypeError" (by decide) (by decide),
   C2_classification_table.2.2.2.1 "" (by decide),
   C2_classification_table.2.2.2.2 200 (by omega) (by omega)⟩

/-! ## C6: in-request retry -/

theorem requestWithRetry_attempts_pos (env : List RequestAttempt) (k : Nat) :
    1 ≤ (requestWithRetry env k).attempts := by
  match env with
  | [] => simp [requestWithRetry]
  | a :: rest =>
    rcases a with ⟨cb, res, cc⟩
    cases res <;> simp only [requestWithRetry] <;> split_ifs <;> simp

theorem inRequestRetryable_response (r : ApoResponse) (cc : Bool)
    (htr : r.status = 429 ∨ (500 ≤ r.status ∧ r.status ≤ 599)) :
    inRequestRetryable ⟨false, .response r, cc⟩ = true := by
  simp [inRequestRetryable, htr]

theorem inRequestRetryable_thrown (code name : String) (cc : Bool)
    (h1 : ¬code = "CANCELLED") (h2 : ¬(name = "AbortError" ∧ cc = true)) :
    inRequestRetryable ⟨false, .thrown code name, cc⟩ = true := by
  by_cases hname : name = "AbortError"
  · subst hname
    cases cc with
    | false => simp [inRequestRetryable, h1]
    | true => exact absurd ⟨rfl, rfl⟩ h2
  · simp [inRequestRetryable, h1, hname]

theorem requestWithRetry_spec (env : List RequestAttempt) :
    ∀ k : Nat, 1 ≤ k → k ≤ RETRY_MAX →
    (requestWithRetry env k).attempts + k ≤ RETRY_MAX + 1 ∧
    (requestWithRetry env k).sleeps =
      (List.range ((requestWithRetry env k).attempts - 1)).map
        (fun i => min 4000 (250 * 2 ^ (k - 1 + i))) ∧
    (env.take ((requestWithRetry env k).attempts - 1)).all inRequestRetryable = true ∧
    (∀ r, (requestWithRetry env k).outcome = .ok r →
      (r.status = 429 ∨ (500 ≤ r.status ∧ r.status ≤ 599)) →
      (requestWithRetry env k).attempts + k = RETRY_MAX + 1) := by
  induction env with
  | nil =>
    intro k hk1 hk3
    simp only [RETRY_MAX] at hk3
    refine ⟨?_, ?_, ?_, ?_⟩
    · simp only [requestWithRetry, RETRY_MAX]; omega
    · simp [requestWithRetry]
    · simp [requestWithRetry]
    · intro r hr
      simp [requestWithRetry] at hr
  | cons a rest ih =>
    intro k hk1 hk3
    have hk3' : k ≤ 3 := by simpa [RETRY_MAX] using hk3
    rcases a with ⟨cb, res, cc⟩
    by_cases hcb : cb
    · subst hcb
      have hret : requestWithRetry (⟨true, res, cc⟩ :: rest) k =
          ⟨.err "CANCELLED" "Error", 1, []⟩ := by
        simp [requestWithRetry]
      refine ⟨?_, ?_, ?_, ?_⟩
      · rw [hret]; simp only [RETRY_MAX]; omega
      · rw [hret]; simp
      · rw [hret]; simp
      · intro r hr
        rw [hret] at hr
        simp at hr
    · simp only [Bool.not_eq_true] at hcb
      subst hcb
      cases res with
      | response r =>
        by_cases htr : r.status = 429 ∨ (500 ≤ r.status ∧ r.status ≤ 599)
        · by_cases hk : RETRY_MAX ≤ k
          · have hret : requestWithRetry (⟨false, .response r, cc⟩ :: rest) k =
                ⟨.ok r, 1, []⟩ := by
              simp [requestWithRetry, htr, hk]
            refine ⟨?_, ?_, ?_, ?_⟩
            · rw [hret]; simp only [RETRY_MAX] at hk ⊢; omega
            · rw [hret]; simp
            · rw [hret]; simp
            · intro rr hrr _
              rw [hret]
              simp only [RETRY_MAX] at hk ⊢
              omega
          · have hrec := ih (k + 1) (by omega)
              (by simp only [RETRY_MAX] at hk ⊢; omega)
            set R := requestWithRetry rest (k + 1) with hR
            obtain ⟨ih1, ih2, ih3, ih4⟩ := hrec
            obtain ⟨m, hm⟩ : ∃ m, R.attempts = m + 1 := by
              have := requestWithRetry_attempts_pos rest (k + 1)
              rw [← hR] at this
              exact ⟨R.attempts - 1, by omega⟩
            have hstep :
                requestWithRetry (⟨false, .response r, cc⟩ :: rest) k =
                  ⟨R.outcome, R.attempts + 1, min 4000 (250 * 2 ^ (k - 1)) :: R.sleeps⟩ := by
              simp [requestWithRetry, htr, hk, ← hR]
            refine ⟨?_, ?_, ?_, ?_⟩
            · rw [hstep]; dsimp only; omega
            · rw [hstep]
              simp only [Nat.add_sub_cancel, hm]
              rw [List.range_succ_eq_map, List.map_cons, List.map_map]
              simp only [List.cons.injEq]
              refine ⟨by simp, ?_⟩
              rw [ih2, hm]
              simp only [Nat.add_sub_cancel]
              apply List.map_congr_left
              intro i _
              simp only [Function.comp_apply]
              have he : k - 1 + i.succ = k + i := by omega
              rw [he]
            · rw [hstep]
              simp only [Nat.add_sub_cancel, hm, List.take_succ_cons, List.all_cons,
                Bool.and_eq_true]
              constructor
              · exact inRequestRetryable_response r cc htr
              · have h3 := ih3
                rw [hm] at h3
                simpa using h3
            · intro rr hrr htrr
              rw [hstep] at hrr ⊢
              dsimp only at hrr ⊢
              have := ih4 rr hrr htrr
              omega
        · have hret : requestWithRetry (⟨false, .response r, cc⟩ :: rest) k =
              ⟨.ok r, 1, []⟩ := by
            simp [requestWithRetry, htr]
          refine ⟨?_, ?_, ?_, ?_⟩
          · rw [hret]; simp only [RETRY_MAX]; omega
          · rw [hret]; simp
          · rw [hret]; simp
          · intro rr hrr htrr
            rw [hret] at hrr
            simp only [ReqOutcome.ok.injEq] at hrr
            subst hrr
            exact absurd htrr htr
      | thrown code name =>
        by_cases h1 : code = "CANCELLED"
        · have hret : requestWithRetry (⟨false, .thrown code name, cc⟩ :: rest) k =
              ⟨.err code name, 1, []⟩ := by
            simp [requestWithRetry, h1]
          refine ⟨?_, ?_, ?_, ?_⟩
          · rw [hret]; simp only [RETRY_MAX]; omega
          · rw [hret]; simp
          · rw [hret]; simp
          · intro rr hrr _
            rw [hret] at hrr
            simp at hrr
        · by_cases h2 : name = "AbortError" ∧ cc
          · have hret : requestWithRetry (⟨false, .thrown code name, cc⟩ :: rest) k =
                ⟨.err code name, 1, []⟩ := by
              simp [requestWithRetry, h1, h2]
            refine ⟨?_, ?_, ?_, ?_⟩
            · rw [hret]; simp only [RETRY_MAX]; omega
            · rw [hret]; simp
            · rw [hret]; simp
            · intro rr hrr _
              rw [hret] at hrr
              simp at hrr
          · by_cases hk : RETRY_MAX ≤ k
            · have hret : requestWithRetry (⟨false, .thrown code name, cc⟩ :: rest) k =
                  ⟨.err code name, 1, []⟩ := by
                simp [requestWithRetry, h1, h2, hk]
              refine ⟨?_, ?_, ?_, ?_⟩
              · rw [hret]; simp only [RETRY_MAX] at hk ⊢; omega
              · rw [hret]; simp
              · rw [hret]; simp
              · intro rr hrr _
                rw [hret] at hrr
                simp at hrr
            · have hrec := ih (k + 1) (by omega)
                (by simp only [RETRY_MAX] at hk ⊢; omega)
              set R := requestWithRetry rest (k + 1) with hR
              obtain ⟨ih1, ih2, ih3, ih4⟩ := hrec
              obtain ⟨m, hm⟩ : ∃ m, R.attempts = m + 1 := by
                have := requestWithRetry_attempts_pos rest (k + 1)
                rw [← hR] at this
                exact ⟨R.attempts - 1, by omega⟩
              have hstep :
                  requestWithRetry (⟨false, .thrown code name, cc⟩ :: rest) k =
                    ⟨R.outcome, R.attempts + 1, min 4000 (250 * 2 ^ (k - 1)) :: R.sleeps⟩ := by
                simp [requestWithRetry, h1, h2, hk, ← hR]
              refine ⟨?_, ?_, ?_, ?_⟩
              · rw [hstep]; dsimp only; omega
              · rw [hstep]
                simp only [Nat.add_sub_cancel, hm]
                rw [List.range_succ_eq_map, List.map_cons, List.map_map]
                simp only [List.cons.injEq]
                refine ⟨by simp, ?_⟩
                rw [ih2, hm]
                simp only [Nat.add_sub_cancel]
                apply List.map_congr_left
                intro i _
                simp only [Function.comp_apply]
                have he : k - 1 + i.succ = k + i := by omega
                rw [he]
              · rw [hstep]
                simp only [Nat.add_sub_cancel, hm, List.take_succ_cons, List.all_cons,
                  Bool.and_eq_true]
                constructor
                · exact inRequestRetryable_thrown code name cc h1 h2
                · have h3 := ih3
                  rw [hm] at h3
                  simpa using h3
              · intro rr hrr htrr
                rw [hstep] at hrr ⊢
                dsimp only at hrr ⊢
                have := ih4 rr hrr htrr
                omega

/-- **C6.** Each page request makes at most `RETRY_MAX = 3` attempts
(at most 2 immediate retries); every retry is triggered by a 429/5xx
response or a thrown non-cancellation error; the sleep before the
`(i+2)`-th attempt is `min(4000, 250 * 2^i)` ms; and a 429/5xx
response reaches the caller (and hence the page-level pause logic)
only after all `RETRY_MAX` attempts are exhausted. -/
theorem C6_request_retry (env : List RequestAttempt) :
    (requestWithRetry env 1).attempts ≤ RETRY_MAX ∧
    (requestWithRetry env 1).sleeps =
      (List.range ((requestWithRetry env 1).attempts - 1)).map
        (fun i => min 4000 (250 * 2 ^ i)) ∧
    (env.take ((requestWithRetry env 1).attempts - 1)).all inRequestRetryable = true ∧
    (∀ r, (requestWithRetry env 1).outcome = .ok r →
      (r.status = 429 ∨ (500 ≤ r.status ∧ r.status ≤ 599)) →
      (requestWithRetry env 1).attempts = RETRY_MAX) := by
  obtain ⟨h1, h2, h3, h4⟩ :=
    requestWithRetry_spec env 1 le_rfl (by simp [RETRY_MAX])
  refine ⟨by omega, ?_, h3, ?_⟩
  · rw [h2]
    apply List.map_congr_left
    intro i _
    norm_num
  · intro r hr htr
    have := h4 r hr htr
    omega

/-- Witness for C6: three successive 503 responses exhaust the three
attempts, sleeping 250 ms then 500 ms, and hand the 503 back. -/
theorem C6_request_retry_witness :
    (requestWithRetry
      [⟨false, .response ⟨503, none⟩, false⟩,
       ⟨false, .response ⟨503, none⟩, false⟩,
       ⟨false, .response ⟨503, none⟩, false⟩] 1).attempts = RETRY_MAX ∧
    (requestWithRetry
      [⟨false, .response ⟨503, none⟩, false⟩,
       ⟨false, .response ⟨503, none⟩, false⟩,
       ⟨false, .response ⟨503, none⟩, false⟩] 1).sleeps = [250, 500] :=
  ⟨(C6_request_retry _).2.2.2 ⟨503, none⟩ (by decide) (by decide), by decide⟩

/-! ## C7: similarity properties -/

theorem sharedBigramCount_comm (a b : List (Char × Char)) :
    sharedBigramCount a b = sharedBigramCount b a := by
  unfold sharedBigramCount
  rw [Multiset.inter_comm]

/-- **C7.** The title-similarity function satisfies
`similarity(x, x) = 1` for every `x` that is non-empty (of length ≥ 2)
after normalization, is `0` whenever either argument normalizes to the
empty string (in particular for the empty string itself), and is
symmetric. -/
theorem C7_similarity_properties :
    (∀ x : String, normalizeForMatch x ≠ "" → 2 ≤ (normalizeForMatch x).length →
      diceCoefficient x x = 1) ∧
    normalizeForMatch "" = "" ∧
    (∀ x y : String, normalizeForMatch x = "" →
      diceCoefficient x y = 0 ∧ diceCoefficient y x = 0) ∧
    (∀ a b : String, diceCoefficient a b = diceCoefficient b a) := by
  refine ⟨?_, ?_, ?_, ?_⟩
  · intro x hne _
    simp [diceCoefficient, hne]
  · decide
  · intro x y h
    constructor <;> simp [diceCoefficient, h]
  · intro a b
    simp only [diceCoefficient]
    by_cases ha : normalizeForMatch a = ""
    · simp [ha]
    · by_cases hb : normalizeForMatch b = ""
      · simp [ha, hb]
      · have hc1 : ¬(normalizeForMatch a = "" ∨ normalizeForMatch b = "") := by
          simp [ha, hb]
        have hc2 : ¬(normalizeForMatch b = "" ∨ normalizeForMatch a = "") := by
          simp [ha, hb]
        rw [if_neg hc1, if_neg hc2]
        by_cases heq : normalizeForMatch a = normalizeForMatch b
        · rw [if_pos heq, if_pos heq.symm]
        · have hne2 : ¬(normalizeForMatch b = normalizeForMatch a) := fun h => heq h.symm
          rw [if_neg heq, if_neg hne2]
          rw [sharedBigramCount_comm (bigrams (normalizeForMatch b))
            (bigrams (normalizeForMatch a))]
          rw [Nat.add_comm (bigrams (normalizeForMatch b)).length
            (bigrams (normalizeForMatch a)).length]
          rw [add_comm ((bigrams (normalizeForMatch b)).length : ℚ)
            ((bigrams (normalizeForMatch a)).length : ℚ)]

/-- Witness for C7 at concrete titles. -/
theorem C7_similarity_properties_witness :
    diceCoefficient "One Piece" "One Piece" = 1 ∧
    diceCoefficient "" "Berserk" = 0 :=
  ⟨C7_similarity_properties.1 "One Piece" (by decide) (by decide),
   (C7_similarity_properties.2.2.1 "" "Berserk" (by decide)).1⟩

/-! ## C3: retryable page failure pauses the run -/

theorem http_ne_cancelled (t : String) : "HTTP_" ++ t ≠ "CANCELLED" := by
  intro h
  have h2 : ("HTTP_" ++ t).data = "CANCELLED".data := by rw [h]
  rw [String.data_append] at h2
  have hH : "HTTP_".data = ['H', 'T', 'T', 'P', '_'] := rfl
  have hC : "CANCELLED".data = ['C', 'A', 'N', 'C', 'E', 'L', 'L', 'E', 'D'] := rfl
  rw [hH, hC] at h2
  simp at h2

/-- Only the `CANCELLED` classification is non-retryable with that
code: a retryable classification never carries code `CANCELLED`. -/
theorem classifyOutcome_cancelled_not_retryable (o : ReqOutcome) :
    (classifyOutcome o).code = "CANCELLED" → (classifyOutcome o).retryable = false := by
  cases o with
  | ok r =>
    simp only [classifyOutcome, classifyInputOfOutcome, classifyNetworkFailure]
    split_ifs <;> intro h <;>
      first
      | exact absurd h (http_ne_cancelled _)
      | simp_all
  | err code name =>
    simp only [classifyOutcome, classifyInputOfOutcome, classifyNetworkFailure]
    split_ifs <;> intro h <;> simp_all

/-- **C3.** When a page's `requestWithRetry` outcome classifies as a
retryable failure, the loop iteration runs `pauseExport`: it persists
a snapshot with `meta.status = "paused"` holding every item collected
so far, writes the paused state whose `last_error` has a
`retry_after_ms` within `[5000, 15000]` and a `retry_at` equal to now
plus that backoff, and returns (outcome `paused`, no exception). -/
theorem C3_retryable_failure_pauses
    (env : LoopEnv) (reqEnv : List RequestAttempt) (evs : List PageEvent)
    (p : Nat) (dedupe : DMap) (pages total : Option Nat) (lastGood : Nat)
    (store : Store) (ws : List ExportState) (sws : List Snapshot)
    (pws : List ExportPayload) (reqs : List Nat)
    (hr : (classifyOutcome (requestWithRetry reqEnv 1).outcome).retryable = true)
    (hc : (classifyOutcome (requestWithRetry reqEnv 1).outcome).code ≠ "") :
    exportLoop env (.fetch reqEnv :: evs) p dedupe pages total lastGood store ws sws pws reqs =
      pauseExportStep env (classifyOutcome (requestWithRetry reqEnv 1).outcome).code
        lastGood pages total dedupe store ws sws pws (reqs ++ [p]) ∧
    (exportLoop env (.fetch reqEnv :: evs) p dedupe pages total lastGood store ws sws pws
        reqs).outcome = .paused ∧
    (exportLoop env (.fetch reqEnv :: evs) p dedupe pages total lastGood store ws sws pws
        reqs).store.state.status = "paused" ∧
    (exportLoop env (.fetch reqEnv :: evs) p dedupe pages total lastGood store ws sws pws
        reqs).store.snapshot.map Snapshot.items = some (dedupe.map Prod.snd) ∧
    (exportLoop env (.fetch reqEnv :: evs) p dedupe pages total lastGood store ws sws pws
        reqs).store.state.last_error =
      some (mkLastError (classifyOutcome (requestWithRetry reqEnv 1).outcome).code
        env.nowMs (computePauseBackoffMs env.q)) ∧
    PAUSE_BACKOFF_MIN_MS ≤ computePauseBackoffMs env.q ∧
    computePauseBackoffMs env.q ≤ PAUSE_BACKOFF_MAX_MS ∧
    (mkLastError (classifyOutcome (requestWithRetry reqEnv 1).outcome).code
        env.nowMs (computePauseBackoffMs env.q)).retry_at_ms =
      env.nowMs + computePauseBackoffMs env.q := by
  have hne : (classifyOutcome (requestWithRetry reqEnv 1).outcome).code ≠ "CANCELLED" := by
    intro hcc
    have h2 := classifyOutcome_cancelled_not_retryable _ hcc
    rw [hr] at h2
    simp at h2
  have hstep :
      exportLoop env (.fetch reqEnv :: evs) p dedupe pages total lastGood store ws sws pws reqs =
        pauseExportStep env (classifyOutcome (requestWithRetry reqEnv 1).outcome).code
          lastGood pages total dedupe store ws sws pws (reqs ++ [p]) := by
    simp only [exportLoop]
    rw [if_neg hne, if_neg hc, if_pos hr]
  refine ⟨hstep, ?_, ?_, ?_, ?_,
    (computePauseBackoffMs_bounds env.q).1, (computePauseBackoffMs_bounds env.q).2, rfl⟩ <;>
    rw [hstep] <;> rfl

/-- Witness for C3: a page that answers 503 on all three attempts
pauses the run with the snapshot holding the collected items. -/
theorem C3_retryable_failure_pauses_witness :
    (exportLoop ⟨"https://mangapark.net", "42", 1000, 0⟩
      [.fetch [⟨false, .response ⟨503, none⟩, false⟩, ⟨false, .response ⟨503, none⟩, false⟩,
        ⟨false, .response ⟨503, none⟩, false⟩]] 1 [("k", ⟨"T", "u", "k"⟩)] none none 0
      ⟨⟨"running", 0, none, 1, none, none, none⟩, none, none⟩ [] [] [] []).outcome =
      Outcome.paused ∧
    (exportLoop ⟨"https://mangapark.net", "42", 1000, 0⟩
      [.fetch [⟨false, .response ⟨503, none⟩, false⟩, ⟨false, .response ⟨503, none⟩, false⟩,
        ⟨false, .response ⟨503, none⟩, false⟩]] 1 [("k", ⟨"T", "u", "k"⟩)] none none 0
      ⟨⟨"running", 0, none, 1, none, none, none⟩, none, none⟩ [] [] [] []).store.state.status =
      "paused" ∧
    (exportLoop ⟨"https://mangapark.net", "42", 1000, 0⟩
      [.fetch [⟨false, .response ⟨503, none⟩, false⟩, ⟨false, .response ⟨503, none⟩, false⟩,
        ⟨false, .response ⟨503, none⟩, false⟩]] 1 [("k", ⟨"T", "u", "k"⟩)] none none 0
      ⟨⟨"running", 0, none, 1, none, none, none⟩, none, none⟩ [] [] []
        []).store.snapshot.map Snapshot.items = some [⟨"T", "u", "k"⟩] :=
  have h := C3_retryable_failure_pauses ⟨"https://mangapark.net", "42", 1000, 0⟩
    [⟨false, .response ⟨503, none⟩, false⟩, ⟨false, .response ⟨503, none⟩, false⟩,
      ⟨false, .response ⟨503, none⟩, false⟩] [] 1 [("k", ⟨"T", "u", "k"⟩)] none none 0
    ⟨⟨"running", 0, none, 1, none, none, none⟩, none, none⟩ [] [] [] []
    (by decide) (by decide)
  ⟨h.2.1, h.2.2.1, h.2.2.2.1⟩

/-! ## The export-loop master invariant -/

theorem WFmap_keyed {d : DMap} (h : WFmap d) : KeyedItems (d.map Prod.snd) := by
  intro it hit
  rcases List.mem_map.mp hit with ⟨kv, hkv, hsnd⟩
  obtain ⟨hk, hne⟩ := h.1 kv hkv
  rw [← hsnd, ← hk]
  exact hne

theorem exportLoop_master (env : LoopEnv) :
    ∀ (events : List PageEvent) (p : Nat) (dedupe : DMap) (pages total : Option Nat)
      (lastGood : Nat) (store : Store) (ws : List ExportState) (sws : List Snapshot)
      (pws : List ExportPayload) (reqs : List Nat) (r : RunResult),
      exportLoop env events p dedupe pages total lastGood store ws sws pws reqs = r →
      WFmap dedupe →
      List.Chain' StateMono ws →
      (ws = [] ∨ ws.getLast? = some store.state) →
      store.state.page = lastGood →
      store.state.collected = dedupe.length →
      lastGood < p →
      (∀ sn ∈ sws, KeyedItems sn.items) →
      (∀ pay ∈ pws, KeyedItems pay.items) →
      (∀ kv ∈ dedupe, kv ∈ r.dedupe) ∧
      WFmap r.dedupe ∧
      (∃ k, r.requests = reqs ++ List.range' p k) ∧
      List.Chain' StateMono r.writes ∧
      (r.writes = [] ∨ r.writes.getLast? = some r.store.state) ∧
      (∀ sn ∈ r.snapshotWrites, KeyedItems sn.items) ∧
      (∀ pay ∈ r.payloadWrites, KeyedItems pay.items) ∧
      (∀ n, r.outcome = .ok n →
        r.store.data = some ⟨⟨env.userId, (r.dedupe.map Prod.snd).length⟩,
          r.dedupe.map Prod.snd⟩ ∧
        n = (r.dedupe.map Prod.snd).length ∧
        r.store.snapshot = none ∧
        r.store.state.status = "done" ∧
        r.store.state.error = none) := by
  intro events
  induction events with
  | nil =>
    intro p dedupe pages total lastGood store ws sws pws reqs r hr h1 h2 h3 h4 h5 h6 h7 h8
    simp only [exportLoop] at hr
    subst hr
    refine ⟨fun kv hkv => hkv, h1, ⟨0, by simp⟩, h2, h3, h7, h8, ?_⟩
    intro n hn
    simp at hn
  | cons ev evs ih =>
    intro p dedupe pages total lastGood store ws sws pws reqs r hr h1 h2 h3 h4 h5 h6 h7 h8
    cases ev with
    | cancel =>
      simp only [exportLoop] at hr
      subst hr
      refine ⟨fun kv hkv => hkv, h1, ⟨0, by simp⟩, ?_, ?_, h7, h8, ?_⟩
      · refine List.Chain'.append h2 (List.chain'_singleton _) ?_
        intro x hx y hy
        simp at hy
        subst hy
        rcases h3 with h3 | h3
        · subst h3; simp at hx
        · rw [h3] at hx
          simp at hx
          subst hx
          exact ⟨le_refl _, le_refl _⟩
      · right; simp
      · intro n hn
        simp at hn
    | fetch reqEnv =>
      simp only [exportLoop] at hr
      by_cases hcanc : (classifyOutcome (requestWithRetry reqEnv 1).outcome).code = "CANCELLED"
      · rw [if_pos hcanc] at hr
        subst hr
        refine ⟨fun kv hkv => hkv, h1, ⟨1, by simp [List.range']⟩, h2, h3, h7, h8, ?_⟩
        intro n hn
        simp at hn
      · rw [if_neg hcanc] at hr
        by_cases hok : (classifyOutcome (requestWithRetry reqEnv 1).outcome).code = ""
        · rw [if_pos hok] at hr
          cases hout : (requestWithRetry reqEnv 1).outcome with
          | err c n0 =>
            rw [hout] at hr
            simp only at hr
            subst hr
            refine ⟨fun kv hkv => hkv, h1, ⟨1, by simp [List.range']⟩, h2, h3, h7, h8, ?_⟩
            intro n hn
            simp at hn
          | ok resp =>
            rw [hout] at hr
            simp only at hr
            cases hbody : resp.body with
            | none =>
              rw [hbody] at hr
              simp only at hr
              subst hr
              refine ⟨fun kv hkv => hkv, h1, ⟨1, by simp [List.range']⟩, h2, h3, h7, h8, ?_⟩
              intro n hn
              simp at hn
            | some pb =>
              rw [hbody] at hr
              simp only at hr
              -- the merged map and the success write
              set dedupe1 := pb.rows.foldl
                (fun d r0 => dedupePush d (mapItemToDataset env.origin r0)) dedupe with hd1
              set s1 := successWrite store.state p pb.pages dedupe1.length pb.total with hs1
              have hmem1 : ∀ kv ∈ dedupe, kv ∈ dedupe1 := by
                intro kv hkv
                exact foldl_dedupePush_mem _ pb.rows dedupe kv hkv
              have hwf1 : WFmap dedupe1 := foldl_dedupePush_wf _ pb.rows dedupe h1
              have hlen1 : dedupe.length ≤ dedupe1.length :=
                foldl_dedupePush_length _ pb.rows dedupe
              have hchain1 : List.Chain' StateMono (ws ++ [s1]) := by
                refine List.Chain'.append h2 (List.chain'_singleton _) ?_
                intro x hx y hy
                simp at hy
                subst hy
                rcases h3 with h3 | h3
                · subst h3; simp at hx
                · rw [h3] at hx
                  simp at hx
                  subst hx
                  refine ⟨?_, ?_⟩
                  · rw [hs1]; simp [successWrite]; omega
                  · rw [hs1]; simp [successWrite]; omega
              by_cases hbrk : pb.pages ≤ p
              · simp only [if_pos hbrk] at hr
                by_cases hmod : p % 5 = 0 <;>
                  [simp only [if_pos hmod] at hr; simp only [if_neg hmod] at hr] <;>
                  · subst hr
                    refine ⟨hmem1, hwf1, ⟨1, by simp [List.range']⟩, ?_, ?_, ?_, ?_, ?_⟩
                    · refine List.Chain'.append hchain1 (List.chain'_singleton _) ?_
                      intro x hx y hy
                      simp at hy hx
                      subst hy hx
                      constructor <;> simp [hs1, doneWrite, successWrite]
                    · right; simp
                    · intro sn hsn
                      dsimp only at hsn
                      first
                      | (rcases List.mem_append.mp hsn with hl | hl
                         · exact h7 sn hl
                         · simp at hl
                           subst hl
                           exact WFmap_keyed hwf1)
                      | exact h7 sn hsn
                    · intro pay hpay
                      dsimp only at hpay
                      rcases List.mem_append.mp hpay with hl | hl
                      · exact h8 pay hl
                      · simp at hl
                        subst hl
                        exact WFmap_keyed hwf1
                    · intro n hn
                      dsimp only at hn
                      simp only [Outcome.ok.injEq] at hn
                      subst hn
                      exact ⟨rfl, rfl, rfl, rfl, rfl⟩
              · simp only [if_neg hbrk] at hr
                by_cases hmod : p % 5 = 0 <;>
                  [simp only [if_pos hmod] at hr; simp only [if_neg hmod] at hr] <;>
                  · obtain ⟨c1, c2, ⟨k, c3⟩, c4, c5, c6, c7, c8⟩ :=
                      ih (p + 1) dedupe1 (some pb.pages) (some pb.total) p _ (ws ++ [s1]) _
                        pws (reqs ++ [p]) r hr hwf1 hchain1 (by right; simp)
                        (by simp [hs1, successWrite]) (by simp [hs1, successWrite])
                        (by omega)
                        (by
                          intro sn hsn
                          first
                          | (rcases List.mem_append.mp hsn with hl | hl
                             · exact h7 sn hl
                             · simp at hl
                               subst hl
                               exact WFmap_keyed hwf1)
                          | exact h7 sn hsn)
                        h8
                    refine ⟨fun kv hkv => c1 kv (hmem1 kv hkv), c2, ⟨k + 1, ?_⟩,
                      c4, c5, c6, c7, c8⟩
                    rw [c3]
                    simp [List.range']
        · rw [if_neg hok] at hr
          by_cases hret : (classifyOutcome (requestWithRetry reqEnv 1).outcome).retryable = true
          · rw [if_pos hret] at hr
            subst hr
            simp only [pauseExportStep]
            refine ⟨fun kv hkv => hkv, h1, ⟨1, by simp [List.range']⟩, ?_, ?_, ?_, h8, ?_⟩
            · refine List.Chain'.append h2 (List.chain'_singleton _) ?_
              intro x hx y hy
              simp at hy
              subst hy
              rcases h3 with h3 | h3
              · subst h3; simp at hx
              · rw [h3] at hx
                simp at hx
                subst hx
                constructor <;> simp [pauseStateWrite, h4, h5]
            · right; simp
            · intro sn hsn
              rcases List.mem_append.mp hsn with hl | hl
              · exact h7 sn hl
              · simp at hl
                subst hl
                exact WFmap_keyed h1
            · intro n hn
              simp at hn
          · rw [if_neg hret] at hr
            subst hr
            refine ⟨fun kv hkv => hkv, h1, ⟨1, by simp [List.range']⟩, ?_, ?_, h7, h8, ?_⟩
            · refine List.Chain'.append h2 (List.chain'_singleton _) ?_
              intro x hx y hy
              simp at hy
              subst hy
              rcases h3 with h3 | h3
              · subst h3; simp at hx
              · rw [h3] at hx
                simp at hx
                subst hx
                constructor <;> simp [errorWrite]
            · right; simp
            · intro n hn
              simp at hn

/-! ## Run-level lemmas -/

theorem resumeHydration_wf (part : Option Snapshot) (rf : Nat) :
    WFmap (resumeHydration part rf).1 := by
  cases part with
  | none => simp only [resumeHydration]; exact WFmap_nil
  | some pp =>
    simp only [resumeHydration]
    split_ifs <;>
      first
      | exact foldl_dedupePush_wf _ pp.items [] WFmap_nil
      | exact WFmap_nil

theorem resumeHydration_start_pos (part : Option Snapshot) (rf : Nat) :
    1 ≤ (resumeHydration part rf).2 := by
  cases part with
  | none => simp only [resumeHydration]; split_ifs <;> omega
  | some pp => simp only [resumeHydration]; split_ifs <;> omega

/-- Conclusions of the loop master invariant, at the level of
`exportAllFollowsViaApo`. -/
theorem exportAllFollows_master (env : RunEnv) (st0 : Store) (resumeFromPage : Nat)
    (r : RunResult) (hr : exportAllFollows env st0 resumeFromPage = r) :
    (env.userId.isSome →
      ∀ kv ∈ (resumeHydration (readPartialPayload st0) resumeFromPage).1, kv ∈ r.dedupe) ∧
    WFmap r.dedupe ∧
    (∃ k, r.requests =
      List.range' (resumeHydration (readPartialPayload st0) resumeFromPage).2 k) ∧
    List.Chain' StateMono r.writes ∧
    (r.writes = [] ∨ r.writes.getLast? = some r.store.state) ∧
    (∀ sn ∈ r.snapshotWrites, KeyedItems sn.items) ∧
    (∀ pay ∈ r.payloadWrites, KeyedItems pay.items) ∧
    (∀ n, r.outcome = .ok n →
      r.store.data = some ⟨⟨env.userId.getD "", (r.dedupe.map Prod.snd).length⟩,
        r.dedupe.map Prod.snd⟩ ∧
      n = (r.dedupe.map Prod.snd).length ∧
      r.store.snapshot = none ∧
      r.store.state.status = "done" ∧
      r.store.state.error = none) := by
  unfold exportAllFollows at hr
  by_cases hres : 1 < resumeFromPage ∧ readPartialPayload st0 = none
  · rw [if_pos hres] at hr
    subst hr
    refine ⟨?_, WFmap_nil, ⟨0, rfl⟩, List.chain'_singleton _, by right; rfl, ?_, ?_, ?_⟩
    · intro _ kv hkv
      rw [hres.2] at hkv
      simp [resumeHydration] at hkv
    · intro sn hsn; cases hsn
    · intro pay hpay; cases hpay
    · intro n hn; simp at hn
  · rw [if_neg hres] at hr
    cases huid : env.userId with
    | none =>
      rw [huid] at hr
      simp only at hr
      subst hr
      refine ⟨?_, WFmap_nil, ⟨0, rfl⟩, List.chain'_nil, by left; rfl, ?_, ?_, ?_⟩
      · intro hsome
        simp [huid] at hsome
      · intro sn hsn; cases hsn
      · intro pay hpay; cases hpay
      · intro n hn; simp at hn
    | some uid =>
      rw [huid] at hr
      simp only at hr
      have hstart := resumeHydration_start_pos (readPartialPayload st0) resumeFromPage
      obtain ⟨c1, c2, ⟨k, c3⟩, c4, c5, c6, c7, c8⟩ :=
        exportLoop_master ⟨env.origin, uid, env.nowMs, env.q⟩ env.events
          (resumeHydration (readPartialPayload st0) resumeFromPage).2
          (resumeHydration (readPartialPayload st0) resumeFromPage).1 none none
          ((resumeHydration (readPartialPayload st0) resumeFromPage).2 - 1)
          _ _ [] [] [] r hr
          (resumeHydration_wf _ _)
          (List.chain'_singleton _) (by right; rfl)
          (by simp [initWrite]) (by simp [initWrite]) (by omega)
          (by intro sn hsn; cases hsn) (by intro pay hpay; cases hpay)
      refine ⟨fun _ => c1, c2, ⟨k, by simpa using c3⟩, c4, c5, c6, c7, ?_⟩
      intro n hn
      simpa [huid] using c8 n hn

/-- The catch handler preserves the run invariants: it only appends a
state patch that leaves `page` and `collected` untouched, and passes
non-thrown outcomes through unchanged. -/
theorem runCatch_master (env : RunEnv) (r0 r : RunResult) (hr : runCatch env r0 = r)
    (hchain : List.Chain' StateMono r0.writes)
    (hlast : r0.writes = [] ∨ r0.writes.getLast? = some r0.store.state) :
    List.Chain' StateMono r.writes ∧
    r.dedupe = r0.dedupe ∧
    r.snapshotWrites = r0.snapshotWrites ∧
    r.payloadWrites = r0.payloadWrites ∧
    r.outcome = r0.outcome ∧
    r.requests = r0.requests ∧
    (∀ n, r0.outcome = .ok n → r = r0) := by
  have happend : ∀ s1 : ExportState,
      s1.page = r0.store.state.page → s1.collected = r0.store.state.collected →
      List.Chain' StateMono (r0.writes ++ [s1]) := by
    intro s1 hp hc
    refine List.Chain'.append hchain (List.chain'_singleton _) ?_
    intro x hx y hy
    simp at hy
    subst hy
    rcases hlast with h | h
    · rw [h] at hx; simp at hx
    · rw [h] at hx
      simp at hx
      subst hx
      exact ⟨by omega, by omega⟩
  unfold runCatch at hr
  cases hout : r0.outcome with
  | thrown c =>
    rw [hout] at hr
    simp only at hr
    split_ifs at hr
    · subst hr
      refine ⟨?_, rfl, rfl, rfl, rfl, rfl, ?_⟩
      · exact happend _ (by simp [catchPausedWrite]) (by simp [catchPausedWrite])
      · intro n h
        exact Outcome.noConfusion h
    · subst hr
      refine ⟨?_, rfl, rfl, rfl, rfl, rfl, ?_⟩
      · exact happend _ (by simp [errorWrite]) (by simp [errorWrite])
      · intro n h
        exact Outcome.noConfusion h
  | ok n0 =>
    rw [hout] at hr
    simp only at hr
    subst hr
    exact ⟨hchain, rfl, rfl, rfl, hout, rfl, fun n h => rfl⟩
  | cancelled =>
    rw [hout] at hr
    simp only at hr
    subst hr
    exact ⟨hchain, rfl, rfl, rfl, hout, rfl, fun n h => rfl⟩
  | paused =>
    rw [hout] at hr
    simp only at hr
    subst hr
    exact ⟨hchain, rfl, rfl, rfl, hout, rfl, fun n h => rfl⟩
  | fatal c =>
    rw [hout] at hr
    simp only at hr
    subst hr
    exact ⟨hchain, rfl, rfl, rfl, hout, rfl, fun n h => rfl⟩
  | outOfEvents =>
    rw [hout] at hr
    simp only at hr
    subst hr
    exact ⟨hchain, rfl, rfl, rfl, hout, rfl, fun n h => rfl⟩
  | notStarted =>
    rw [hout] at hr
    simp only at hr
    subst hr
    exact ⟨hchain, rfl, rfl, rfl, hout, rfl, fun n h => rfl⟩

/-- Conclusions of the invariants at the level of `runExport`. -/
theorem runExport_master (env : RunEnv) (st0 : Store) (r : RunResult)
    (hr : runExport env st0 = r) :
    List.Chain' StateMono r.writes ∧
    WFmap r.dedupe ∧
    (∀ sn ∈ r.snapshotWrites, KeyedItems sn.items) ∧
    (∀ pay ∈ r.payloadWrites, KeyedItems pay.items) ∧
    (∀ n, r.outcome = .ok n →
      r.store.data = some ⟨⟨env.userId.getD "", (r.dedupe.map Prod.snd).length⟩,
        r.dedupe.map Prod.snd⟩ ∧
      n = (r.dedupe.map Prod.snd).length ∧
      r.store.snapshot = none ∧
      r.store.state.status = "done" ∧
      r.store.state.error = none) := by
  unfold runExport at hr
  by_cases h1 : st0.state.status = "running"
  · rw [if_pos h1] at hr
    subst hr
    refine ⟨List.chain'_nil, WFmap_nil, ?_, ?_, ?_⟩
    · intro sn hsn; cases hsn
    · intro pay hpay; cases hpay
    · intro n hn; simp at hn
  · rw [if_neg h1] at hr
    by_cases h2 : st0.state.status = "paused" ∧ env.waitCancel
    · rw [if_pos h2] at hr
      subst hr
      refine ⟨List.chain'_singleton _, WFmap_nil, ?_, ?_, ?_⟩
      · intro sn hsn; cases hsn
      · intro pay hpay; cases hpay
      · intro n hn; simp at hn
    · rw [if_neg h2] at hr
      obtain ⟨a1, a2, a3, a4, a5, a6, a7, a8⟩ :=
        exportAllFollows_master env st0 (decideResumeFrom st0)
          (exportAllFollows env st0 (decideResumeFrom st0)) rfl
      obtain ⟨b1, b2, b3, b4, b5, b6, b7⟩ :=
        runCatch_master env (exportAllFollows env st0 (decideResumeFrom st0)) r hr a4 a5
      refine ⟨b1, by rw [b2]; exact a2, by rw [b3]; exact a6, by rw [b4]; exact a7, ?_⟩
      intro n hn
      rw [b5] at hn
      rw [b7 n hn]
      exact a8 n hn

/-- Every item of a list with non-empty, pairwise-distinct dedupe keys
survives folding `dedupePush` over the list (no loss on hydration). -/
theorem foldl_dedupePush_mem_self :
    ∀ (l : List Item) (d : DMap),
      (∀ it ∈ l, dedupeKey it ≠ "") →
      (l.map dedupeKey).Nodup →
      (∀ it ∈ l, ∀ kv ∈ d, kv.1 ≠ dedupeKey it) →
      ∀ it ∈ l, (dedupeKey it, it) ∈ l.foldl dedupePush d := by
  intro l
  induction l with
  | nil =>
    intro d _ _ _ it hit
    cases hit
  | cons a rest ih =>
    intro d hkeys hnodup hfresh it hit
    have hpush : dedupePush d a = d ++ [(dedupeKey a, a)] := by
      unfold dedupePush
      split_ifs with h1 h2
      · exact absurd h1 (hkeys a (by simp))
      · exfalso
        rw [List.any_eq_true] at h2
        obtain ⟨kv, hkv, hkveq⟩ := h2
        simp only [decide_eq_true_eq] at hkveq
        exact hfresh a (by simp) kv hkv hkveq
      · rfl
    rw [List.foldl_cons]
    rcases List.mem_cons.mp hit with heq | hmem
    · subst heq
      have hmem0 : (dedupeKey it, it) ∈ dedupePush d it := by
        rw [hpush]
        simp
      exact foldl_dedupePush_mem (fun x : Item => x) rest (dedupePush d it) _ hmem0
    · have hfresh2 : ∀ x ∈ rest, ∀ kv ∈ dedupePush d a, kv.1 ≠ dedupeKey x := by
        intro x hx kv hkv
        rw [hpush] at hkv
        rcases List.mem_append.mp hkv with hkv | hkv
        · exact hfresh x (by simp [hx]) kv hkv
        · simp only [List.mem_singleton] at hkv
          subst hkv
          simp only
          intro hco
          simp only [List.map_cons, List.nodup_cons] at hnodup
          exact hnodup.1 (by rw [hco]; exact List.mem_map_of_mem dedupeKey hx)
      have hkeys2 : ∀ x ∈ rest, dedupeKey x ≠ "" := fun x hx => hkeys x (by simp [hx])
      have hnodup2 : (rest.map dedupeKey).Nodup := by
        simp only [List.map_cons, List.nodup_cons] at hnodup
        exact hnodup.2
      exact ih (dedupePush d a) hkeys2 hnodup2 hfresh2 it hmem

/-- The second component of a well-formed map entry determines the
first, so distinct keys give distinct values. -/
theorem WFmap_values_nodup {d : DMap} (h : WFmap d) : (d.map Prod.snd).Nodup := by
  have hmap : d.map Prod.fst = (d.map Prod.snd).map dedupeKey := by
    rw [List.map_map]
    apply List.map_congr_left
    intro kv hkv
    exact (h.1 kv hkv).1
  exact List.Nodup.of_map dedupeKey (by rw [← hmap]; exact h.2)

/-! ## C8, C5, C10: run-level claims -/

/-- **C8.** Within one export run, across the successive
`mp_export_state` writes, neither the written `page` nor the written
`collected` count ever decreases. -/
theorem C8_state_writes_monotone (env : RunEnv) (st0 : Store) :
    List.Chain' (fun a b : ExportState => a.page ≤ b.page ∧ a.collected ≤ b.collected)
      (runExport env st0).writes :=
  (runExport_master env st0 _ rfl).1

/-- **C5.** When the export loop reaches the server-reported page
count with every page succeeding (outcome `ok n`), the engine writes a
final `ExportPayload` whose `meta.total_items` equals the number of
distinct collected items and whose items are the dedupe map's values
(pairwise distinct, with distinct identity keys), clears the snapshot,
and sets `status = "done"` with `error = null`. -/
theorem C5_success_writes_payload (env : RunEnv) (st0 : Store) (n : Nat)
    (h : (runExport env st0).outcome = .ok n) :
    (runExport env st0).store.data =
      some ⟨⟨env.userId.getD "", ((runExport env st0).dedupe.map Prod.snd).length⟩,
        (runExport env st0).dedupe.map Prod.snd⟩ ∧
    n = ((runExport env st0).dedupe.map Prod.snd).length ∧
    ((runExport env st0).dedupe.map Prod.snd).Nodup ∧
    (((runExport env st0).dedupe.map Prod.snd).map dedupeKey).Nodup ∧
    (runExport env st0).store.snapshot = none ∧
    (runExport env st0).store.state.status = "done" ∧
    (runExport env st0).store.state.error = none := by
  obtain ⟨_, hwf, _, _, hok⟩ := runExport_master env st0 _ rfl
  obtain ⟨d1, d2, d3, d4, d5⟩ := hok n h
  have hkeysnodup : (((runExport env st0).dedupe.map Prod.snd).map dedupeKey).Nodup := by
    have hmap : (runExport env st0).dedupe.map Prod.fst =
        ((runExport env st0).dedupe.map Prod.snd).map dedupeKey := by
      rw [List.map_map]
      apply List.map_congr_left
      intro kv hkv
      exact (hwf.1 kv hkv).1
    rw [← hmap]
    exact hwf.2
  exact ⟨d1, d2, WFmap_values_nodup hwf, hkeysnodup, d3, d4, d5⟩

/-- Witness for C5: a one-page run with two rows completes with the
payload written, the snapshot cleared and status done. -/
theorem C5_success_writes_payload_witness :
    (runExport
      ⟨"https://mp.net", some "7", 0, 0, false,
        [.fetch [⟨false, .response ⟨200,
          some ⟨1, 2, [⟨"a", "A", "/a"⟩, ⟨"b", "B", "/b"⟩]⟩⟩, false⟩]]⟩
      ⟨⟨"idle", 0, none, 0, none, none, none⟩, none, none⟩).store.state.status = "done" ∧
    (runExport
      ⟨"https://mp.net", some "7", 0, 0, false,
        [.fetch [⟨false, .response ⟨200,
          some ⟨1, 2, [⟨"a", "A", "/a"⟩, ⟨"b", "B", "/b"⟩]⟩⟩, false⟩]]⟩
      ⟨⟨"idle", 0, none, 0, none, none, none⟩, none, none⟩).store.data =
      some ⟨⟨"7", 2⟩, [⟨"A", "https://mp.net/a", "a"⟩, ⟨"B", "https://mp.net/b", "b"⟩]⟩ :=
  have h := C5_success_writes_payload
    ⟨"https://mp.net", some "7", 0, 0, false,
      [.fetch [⟨false, .response ⟨200,
        some ⟨1, 2, [⟨"a", "A", "/a"⟩, ⟨"b", "B", "/b"⟩]⟩⟩, false⟩]]⟩
    ⟨⟨"idle", 0, none, 0, none, none, none⟩, none, none⟩ 2 (by decide)
  ⟨h.2.2.2.2.2.1, by rw [h.1]; decide⟩

/-- **C10.** Every entry of the dedupe map is keyed by its item's
identity key and that key is non-empty; hence every item in any
persisted snapshot write or payload write has a non-empty identity
key; and a row mapping to an item with neither a `comic_id` nor a
`mangapark_url` is silently dropped by `dedupePush` (the merge step
and snapshot hydration both insert through it). -/
theorem C10_identity_keys_nonempty (env : RunEnv) (st0 : Store) :
    (∀ kv ∈ (runExport env st0).dedupe,
      dedupeKey kv.2 ≠ "" ∧ kv.1 = dedupeKey kv.2) ∧
    (∀ sn ∈ (runExport env st0).snapshotWrites, ∀ it ∈ sn.items, dedupeKey it ≠ "") ∧
    (∀ pay ∈ (runExport env st0).payloadWrites, ∀ it ∈ pay.items, dedupeKey it ≠ "") ∧
    (∀ (d : DMap) (it : Item), dedupeKey it = "" → dedupePush d it = d) := by
  obtain ⟨_, hwf, hsws, hpws, _⟩ := runExport_master env st0 _ rfl
  refine ⟨?_, hsws, hpws, ?_⟩
  · intro kv hkv
    obtain ⟨hk, hne⟩ := hwf.1 kv hkv
    exact ⟨by rw [← hk]; exact hne, hk⟩
  · intro d it h
    simp [dedupePush, h]

/-- Witness for C10: a row with neither id nor url is dropped. -/
theorem C10_identity_keys_nonempty_witness :
    dedupePush [("k", ⟨"T", "u", "k"⟩)] ⟨"untitled", "", ""⟩ = [("k", ⟨"T", "u", "k"⟩)] :=
  (C10_identity_keys_nonempty ⟨"o", some "u", 0, 0, false, []⟩
    ⟨⟨"idle", 0, none, 0, none, none, none⟩, none, none⟩).2.2.2
    [("k", ⟨"T", "u", "k"⟩)] ⟨"untitled", "", ""⟩ (by decide)

/-! ## C1: resume preserves and dedupes collected items -/

/-- **C1.** A `runExport` with a valid snapshot present (non-empty
items with well-formed, pairwise-distinct identity keys, `meta.page ≥
1`) hydrates the dedupe map from the snapshot's items before any page
request (the conclusion holds for every event environment, including
one issuing no requests at all) and restarts the page loop at
`snapshot.meta.page + 1`: the pages requested are consecutive from
`snapshot.meta.page + 1`, the final collected item set contains every
snapshot item, and no two collected entries share an identity key
(`comic_id`, else `mangapark_url`). -/
theorem C1_resume_preserves_items
    (env : RunEnv) (st0 : Store) (pp : Snapshot) (uid : String)
    (hrun : st0.state.status ≠ "running")
    (hwait : env.waitCancel = false)
    (hsnap : st0.snapshot = some pp)
    (hvalid : isValidPartialPayload pp = true)
    (huid : env.userId = some uid)
    (hkeys : ∀ it ∈ pp.items, dedupeKey it ≠ "")
    (hnodup : (pp.items.map dedupeKey).Nodup) :
    (∃ k, (runExport env st0).requests = List.range' (pp.meta.page + 1) k) ∧
    (∀ it ∈ pp.items, it ∈ (runExport env st0).dedupe.map Prod.snd) ∧
    ((runExport env st0).dedupe.map Prod.fst).Nodup ∧
    (∀ kv ∈ (runExport env st0).dedupe, kv.1 = dedupeKey kv.2) := by
  have hread : readPartialPayload st0 = some pp := by
    unfold readPartialPayload
    rw [hsnap]
    simp only [if_pos hvalid]
  have hpage : 1 ≤ pp.meta.page := by
    unfold isValidPartialPayload at hvalid
    simp only [Bool.and_eq_true, decide_eq_true_eq] at hvalid
    exact hvalid.2
  have hdecide : decideResumeFrom st0 = pp.meta.page + 1 := by
    unfold decideResumeFrom
    rw [hread]
    simp [hpage]
  have h11 : 1 < pp.meta.page + 1 := by omega
  have hhyd : resumeHydration (readPartialPayload st0) (decideResumeFrom st0) =
      (hydrateDedupeFromPartial [] pp, pp.meta.page + 1) := by
    rw [hread, hdecide]
    simp [resumeHydration, h11, hpage]
  have h2 : ¬(st0.state.status = "paused" ∧ env.waitCancel = true) := by
    rw [hwait]
    simp
  have hre : runExport env st0 =
      runCatch env (exportAllFollows env st0 (decideResumeFrom st0)) := by
    unfold runExport
    rw [if_neg hrun, if_neg h2]
  obtain ⟨a1, a2, a3, a4, a5, _, _, _⟩ :=
    exportAllFollows_master env st0 (decideResumeFrom st0)
      (exportAllFollows env st0 (decideResumeFrom st0)) rfl
  obtain ⟨_, b2, _, _, _, b6, _⟩ :=
    runCatch_master env (exportAllFollows env st0 (decideResumeFrom st0))
      (runCatch env (exportAllFollows env st0 (decideResumeFrom st0))) rfl a4 a5
  have hmemhyd : ∀ it ∈ pp.items,
      (dedupeKey it, it) ∈ hydrateDedupeFromPartial [] pp := by
    intro it hit
    exact foldl_dedupePush_mem_self pp.items [] hkeys hnodup
      (by intro x _ kv hkv; cases hkv) it hit
  have ha1 := a1 (by rw [huid]; rfl)
  rw [hhyd] at ha1 a3
  refine ⟨?_, ?_, ?_, ?_⟩
  · obtain ⟨k, hk⟩ := a3
    exact ⟨k, by rw [hre, b6]; exact hk⟩
  · intro it hit
    rw [hre, b2]
    exact List.mem_map_of_mem Prod.snd (ha1 (dedupeKey it, it) (hmemhyd it hit))
  · rw [hre, b2]
    exact a2.2
  · intro kv hkv
    rw [hre, b2] at hkv
    exact (a2.1 kv hkv).1

/-- Witness for C1: resuming from a snapshot at page 2 with one item,
with an empty event environment (no requests issued), the item is
already in the dedupe map. -/
theorem C1_resume_preserves_items_witness :
    (⟨"T", "u", "c"⟩ : Item) ∈
      (runExport ⟨"https://mp.net", some "7", 0, 0, false, []⟩
        ⟨⟨"paused", 2, some 3, 1, some 9, none, none⟩,
         some ⟨⟨"paused", 2, some 3, some 9, "7", none⟩, [⟨"T", "u", "c"⟩]⟩,
         none⟩).dedupe.map Prod.snd :=
  (C1_resume_preserves_items
    ⟨"https://mp.net", some "7", 0, 0, false, []⟩
    ⟨⟨"paused", 2, some 3, 1, some 9, none, none⟩,
     some ⟨⟨"paused", 2, some 3, some 9, "7", none⟩, [⟨"T", "u", "c"⟩]⟩,
     none⟩
    ⟨⟨"paused", 2, some 3, some 9, "7", none⟩, [⟨"T", "u", "c"⟩]⟩ "7"
    (by decide) rfl rfl (by decide) rfl (by decide) (by decide)).2.1
    ⟨"T", "u", "c"⟩ (by decide)

/-! ## C9: the auto-match driver never re-queries processed items -/

theorem getD_set_ne {α : Type} (l : List α) (i j : Nat) (x d : α) (h : j ≠ i) :
    (l.set i x).getD j d = l.getD j d := by
  simp [List.getD_eq_getElem?_getD, List.getElem?_set_ne (Ne.symm h)]

theorem processedAt_set_ne (l : List (Option MatchEntry)) (i j : Nat)
    (x : Option MatchEntry) (h : j ≠ i) :
    processedAt (l.set i x) j = processedAt l j := by
  unfold processedAt
  rw [getD_set_ne l i j x none h]

theorem getD_append_replicate_none (l : List (Option MatchEntry)) (k j : Nat) :
    (l ++ List.replicate k none).getD j none = l.getD j none := by
  rcases Nat.lt_or_ge j l.length with h | h
  · rw [List.getD_append _ _ _ _ h]
  · have h1 : l.getD j none = none := by
      rw [List.getD_eq_getElem?_getD, List.getElem?_eq_none (by simpa using h)]
      rfl
    have h3 : (List.replicate k (none : Option MatchEntry)).getD (j - l.length) none
        = none := by
      simp only [List.getD_eq_getElem?_getD, List.getElem?_replicate]
      split <;> rfl
    rw [List.getD_append_right _ _ _ _ h, h1, h3]

theorem processedAt_append_replicate (l : List (Option MatchEntry)) (k j : Nat) :
    processedAt (l ++ List.replicate k none) j = processedAt l j := by
  unfold processedAt
  rw [getD_append_replicate_none]

theorem mdMatchLoop_master (items : List Item) (env : Nat → MatchStepEnv) :
    ∀ (fuel i : Nat) (results : List (Option MatchEntry)) (matched : Nat)
      (st : MatchState) (queried : List Nat) (res : MatchRunResult),
      mdMatchLoop items env fuel i results matched st queried = res →
      (∀ j, processedAt results j = true → j ∉ queried →
        j ∉ res.queried ∧
        ((items.getD j emptyItem).title.trim ≠ "" →
          res.results.getD j none = results.getD j none)) ∧
      (∀ j ∈ res.queried, j ∈ queried ∨ i ≤ j) := by
  intro fuel
  induction fuel with
  | zero =>
    intro i results matched st queried res hres
    simp only [mdMatchLoop] at hres
    subst hres
    exact ⟨fun j _ hnq => ⟨hnq, fun _ => rfl⟩, fun j hj => Or.inl hj⟩
  | succ fuel ih =>
    intro i results matched st queried res hres
    simp only [mdMatchLoop] at hres
    by_cases hlen : items.length ≤ i
    · rw [if_pos hlen] at hres
      subst hres
      exact ⟨fun j _ hnq => ⟨hnq, fun _ => rfl⟩, fun j hj => Or.inl hj⟩
    · rw [if_neg hlen] at hres
      by_cases hcanc : (env i).cancel = true
      · rw [if_pos hcanc] at hres
        subst hres
        exact ⟨fun j _ hnq => ⟨hnq, fun _ => rfl⟩, fun j hj => Or.inl hj⟩
      · rw [if_neg hcanc] at hres
        by_cases htitle : (items.getD i emptyItem).title.trim = ""
        · rw [if_pos htitle] at hres
          obtain ⟨A, C⟩ := ih (i + 1) _ matched st queried res hres
          constructor
          · intro j hj hnq
            by_cases hji : j = i
            · subst hji
              refine ⟨?_, ?_⟩
              · intro hjq
                rcases C j hjq with h | h
                · exact hnq h
                · omega
              · intro hne
                exact absurd htitle hne
            · have hpp := processedAt_set_ne results i j
                (some ⟨false, "", none, 0, []⟩) hji
              obtain ⟨A1, A2⟩ := A j (by rw [hpp]; exact hj) hnq
              refine ⟨A1, fun hne => ?_⟩
              rw [A2 hne]
              exact getD_set_ne results i j _ none hji
          · intro j hj
            rcases C j hj with h | h
            · exact Or.inl h
            · exact Or.inr (by omega)
        · rw [if_neg htitle] at hres
          by_cases hproc : processedAt results i = true
          · rw [if_pos hproc] at hres
            obtain ⟨A, C⟩ := ih (i + 1) results matched st queried res hres
            refine ⟨A, fun j hj => (C j hj).imp id (by omega)⟩
          · rw [if_neg hproc] at hres
            cases hsearch : (env i).search with
            | error msg =>
              rw [hsearch] at hres
              simp only at hres
              subst hres
              constructor
              · intro j hj hnq
                have hji : j ≠ i := fun h => hproc (h ▸ hj)
                refine ⟨?_, fun _ => rfl⟩
                intro hjq
                rcases List.mem_append.mp hjq with h | h
                · exact hnq h
                · simp at h
                  exact hji h
              · intro j hj
                rcases List.mem_append.mp hj with h | h
                · exact Or.inl h
                · simp at h
                  subst h
                  exact Or.inr le_rfl
            | ok rows =>
              rw [hsearch] at hres
              simp only at hres
              obtain ⟨A, C⟩ := ih (i + 1) _ _ _ _ res hres
              constructor
              · intro j hj hnq
                have hji : j ≠ i := fun h => hproc (h ▸ hj)
                obtain ⟨A1, A2⟩ := A j
                  (by rw [processedAt_set_ne results i j _ hji]; exact hj)
                  (by
                    intro hjq
                    rcases List.mem_append.mp hjq with h | h
                    · exact hnq h
                    · simp at h
                      exact hji h)
                refine ⟨A1, fun hne => ?_⟩
                rw [A2 hne]
                exact getD_set_ne results i j _ none hji
              · intro j hj
                rcases C j hj with h | h
                · rcases List.mem_append.mp h with h | h
                  · exact Or.inl h
                  · simp at h
                    subst h
                    exact Or.inr le_rfl
                · exact Or.inr (by omega)

theorem mdRun_processed_not_queried (items : List Item) (env : Nat → MatchStepEnv)
    (st0 : MatchState) (results0 : List (Option MatchEntry)) (j : Nat)
    (hj : processedAt results0 j = true) :
    j ∉ (mdRunAutoMatch items env st0 results0).queried := by
  unfold mdRunAutoMatch
  by_cases hlen : items.length = 0
  · rw [if_pos hlen]
    simp
  · rw [if_neg hlen]
    exact ((mdMatchLoop_master items env _ _ _ _ _ [] _ rfl).1 j
      (by rw [processedAt_append_replicate]; exact hj) (by simp)).1

theorem mdRun_processed_preserved (items : List Item) (env : Nat → MatchStepEnv)
    (st0 : MatchState) (results0 : List (Option MatchEntry)) (j : Nat)
    (hj : processedAt results0 j = true)
    (hne : (items.getD j emptyItem).title.trim ≠ "") :
    (mdRunAutoMatch items env st0 results0).results.getD j none =
      results0.getD j none := by
  unfold mdRunAutoMatch
  by_cases hlen : items.length = 0
  · rw [if_pos hlen]
  · rw [if_neg hlen]
    exact (((mdMatchLoop_master items env _ _ _ _ _ [] _ rfl).1 j
      (by rw [processedAt_append_replicate]; exact hj) (by simp)).2 hne).trans
      (getD_append_replicate_none results0 _ j)

theorem mdRun_queried_ge_start (items : List Item) (env : Nat → MatchStepEnv)
    (st0 : MatchState) (results0 : List (Option MatchEntry)) :
    ∀ j ∈ (mdRunAutoMatch items env st0 results0).queried, mdStartIndex st0 ≤ j := by
  unfold mdRunAutoMatch
  by_cases hlen : items.length = 0
  · rw [if_pos hlen]
    intro j hj
    cases hj
  · rw [if_neg hlen]
    intro j hj
    rcases (mdMatchLoop_master items env _ _ _ _ _ [] _ rfl).2 j hj with h | h
    · cases h
    · exact h

/-- **C9.** In the auto-match driver, a source item whose stored
`MatchResult` entry is `processed` is never queried again on this run
or on any later run or resume: a resumed run starts scanning at the
paused state's index (all queried indices are at or past the start
index), the loop skips any index whose non-empty-title entry is
already processed (preserving it verbatim), and issues a search
request only for unprocessed items. -/
theorem C9_processed_never_requeried (items : List Item) (env : Nat → MatchStepEnv)
    (st0 : MatchState) (results0 : List (Option MatchEntry)) :
    (∀ j, processedAt results0 j = true →
      j ∉ (mdRunAutoMatch items env st0 results0).queried) ∧
    (∀ j, processedAt results0 j = true →
      (items.getD j emptyItem).title.trim ≠ "" →
      (mdRunAutoMatch items env st0 results0).results.getD j none =
        results0.getD j none) ∧
    (∀ j ∈ (mdRunAutoMatch items env st0 results0).queried, mdStartIndex st0 ≤ j) ∧
    (∀ (env2 : Nat → MatchStepEnv) (j : Nat), processedAt results0 j = true →
      (items.getD j emptyItem).title.trim ≠ "" →
      j ∉ (mdRunAutoMatch items env2 (mdRunAutoMatch items env st0 results0).state
            (mdRunAutoMatch items env st0 results0).results).queried) := by
  refine ⟨fun j hj => mdRun_processed_not_queried items env st0 results0 j hj,
    fun j hj hne => mdRun_processed_preserved items env st0 results0 j hj hne,
    mdRun_queried_ge_start items env st0 results0, ?_⟩
  intro env2 j hj hne
  have hpp : processedAt (mdRunAutoMatch items env st0 results0).results j = true := by
    unfold processedAt
    rw [mdRun_processed_preserved items env st0 results0 j hj hne]
    exact hj
  exact mdRun_processed_not_queried items env2 _ _ j hpp

/-- Witness for C9: with a single already-processed item, the run
issues no query for it, on this run and on a following run. -/
theorem C9_processed_never_requeried_witness :
    (0 : Nat) ∉ (mdRunAutoMatch [⟨"A", "u", "i"⟩] (fun _ => ⟨false, .ok []⟩)
      ⟨"idle", 0, 1, 0, 0, ""⟩ [some ⟨true, "A", none, 0, []⟩]).queried :=
  (C9_processed_never_requeried [⟨"A", "u", "i"⟩] (fun _ => ⟨false, .ok []⟩)
    ⟨"idle", 0, 1, 0, 0, ""⟩ [some ⟨true, "A", none, 0, []⟩]).1 0 (by decide)

/-! ## C4: cancellation -/

/-- **C4** (amended).  When the cancellation flag is observed at the
top of the page loop, the engine writes exactly one more state — the
idle/CANCELLED terminal state — and exits: no `ExportPayload` is
written, the persisted snapshot is left in place, and the write trace
gains only the cancel write.  (A cancellation that surfaces inside the
request layer instead escapes as a thrown `CANCELLED` — ending in
`status = "error"` — or, when it aborts the in-flight request, is
classified `TIMEOUT` and leads to the paused state; see the
counterexample.) -/
theorem C4_looptop_cancel_idle (env : LoopEnv) (evs : List PageEvent) (p : Nat)
    (dedupe : DMap) (pages total : Option Nat) (lastGood : Nat) (store : Store)
    (ws : List ExportState) (sws : List Snapshot) (pws : List ExportPayload)
    (reqs : List Nat) :
    exportLoop env (.cancel :: evs) p dedupe pages total lastGood store ws sws pws reqs =
      ⟨.cancelled, { store with state := cancelWrite store.state },
        ws ++ [cancelWrite store.state], sws, pws, reqs, dedupe⟩ ∧
    (cancelWrite store.state).status = "idle" ∧
    (cancelWrite store.state).error = some "CANCELLED" ∧
    ({ store with state := cancelWrite store.state } : Store).snapshot = store.snapshot ∧
    ({ store with state := cancelWrite store.state } : Store).data = store.data := by
  refine ⟨?_, rfl, rfl, rfl, rfl⟩
  simp only [exportLoop]

/-- Counterexample to C4 as stated: a cancellation observed
mid-request (the abort of the in-flight request, with the cancel flag
seen at the `AbortError` check) is rethrown as an `AbortError`,
classified as retryable `TIMEOUT`, and the run ends paused with
`error = TIMEOUT` — not in the claimed idle/CANCELLED terminal state,
and a paused state is written after the cancellation was observed. -/
theorem C4_midrequest_cancel_counterexample :
    (runExport
      ⟨"https://mangapark.net", some "42", 1000, 0, false,
        [.fetch [⟨false, .thrown "" "AbortError", true⟩]]⟩
      ⟨⟨"idle", 0, none, 0, none, none, none⟩, none, none⟩).store.state.status =
      "paused" ∧
    (runExport
      ⟨"https://mangapark.net", some "42", 1000, 0, false,
        [.fetch [⟨false, .thrown "" "AbortError", true⟩]]⟩
      ⟨⟨"idle", 0, none, 0, none, none, none⟩, none, none⟩).store.state.error =
      some "TIMEOUT" ∧
    ¬((runExport
      ⟨"https://mangapark.net", some "42", 1000, 0, false,
        [.fetch [⟨false, .thrown "" "AbortError", true⟩]]⟩
      ⟨⟨"idle", 0, none, 0, none, none, none⟩, none, none⟩).store.state.status = "idle" ∧
      (runExport
      ⟨"https://mangapark.net", some "42", 1000, 0, false,
        [.fetch [⟨false, .thrown "" "AbortError", true⟩]]⟩
      ⟨⟨"idle", 0, none, 0, none, none, none⟩, none, none⟩).store.state.error =
        some "CANCELLED") := by
  refine ⟨?_, ?_, ?_⟩ <;> decide

end MP
